import Mathlib

/-!
A shallow embedding of `src/Codereviewer.py` (class `CodeReviewer`): a
rule-based static-analysis engine over a parsed Python syntax tree.

Modelling conventions, fixed once here:

* The Python `ast` tree is embedded as the inductive `Node` below, a tagged
  variant carrying exactly the fields the rule catalog reads.  Statement and
  expression kinds share one type (the code inspects nodes with `isinstance`,
  never relying on a stmt/expr distinction).  Every node kind that has a
  `lineno` in CPython carries it as its first field; `module` has none.
* `ast.parse` is external to the repository; a parse is modelled as an
  already-produced `Except String Node` (the `SyntaxError` message on
  failure), and `load_code`'s `code.split('\n')` as an already-split
  `List String` of lines.  Concrete scenario theorems construct the tree and
  line list that CPython's parser produces for the quoted source.
* `pycodestyle` is an external collaborator consumed only as
  `report.total_errors`; it is modelled as an explicit `Nat` argument.
* `ast.walk` is breadth-first; `walkFrom` reproduces it with a fuel argument
  (fuel `size t` always suffices) so that it is structurally recursive and
  computable by the kernel.
* `check_line_numbers` mutates a `.parent` back-reference onto every child
  (the Context Linker).  Since the tree is strict and the linker assigns each
  node its unique structural parent, the `.parent` chain of a node equals its
  structural ancestor path; the walk below therefore carries the ancestor
  list alongside each node, and the linker itself contributes no diagnostics.
* Python `list.index` / attribute errors inside `check_unreachable_code` are
  the one way a rule can raise; that check returns `Except String` and the
  error propagates out of `analyze` exactly as the uncaught exception does.
  Node identity (`==` on ast nodes) is modelled as structural equality; the
  concrete inputs used in theorems contain no duplicate equal statements, so
  the two notions agree on them.
* String helpers (`pyStrip`, `pyUpper`, …) model the Python `str` methods on
  the character sets that actually occur: ASCII identifiers and source lines
  without `\v`/`\f`.
-/

namespace CodeReviewer

/-- Expression context of an `ast.Name`: assignment target or read. -/
inductive Ctx where
  | store
  | load
deriving DecidableEq, Repr

/-- Value of an `ast.Constant`.  Python `bool` is a subtype of `int`; it is
kept as a separate tag and the few `isinstance(…, int)` tests in the rules
treat it accordingly. -/
inductive ConstVal where
  | int (n : Int)
  | bool (b : Bool)
  | str (s : String)
  | none
deriving DecidableEq, Repr

/-- The syntax-tree node kinds the rule catalog inspects, with the fields the
checks read.  `importS`/`importFrom` keep their alias lists as
`(name, asname)` pairs (no rule walks into `ast.alias` nodes).  For
`functionDef`/`lambdaE` the parameter names and the default expressions are
inlined (no rule matches the intermediate `ast.arguments`/`ast.arg` nodes);
`len(node.args.args)` is `params.length` and `node.args.defaults` is
`defaults`.  `dictE` holds keys and values in one child list. -/
inductive Node where
  | module (body : List Node)
  | functionDef (lineno : Nat) (nm : String) (params : List String)
      (defaults : List Node) (body : List Node)
  | classDef (lineno : Nat) (nm : String) (bases : List Node) (body : List Node)
  | ret (lineno : Nat) (value : Option Node)
  | assign (lineno : Nat) (targets : List Node) (value : Node)
  | importS (lineno : Nat) (names : List (String × Option String))
  | importFrom (lineno : Nat) (modl : Option String)
      (names : List (String × Option String))
  | ifS (lineno : Nat) (test : Node) (body : List Node) (orelse : List Node)
  | forS (lineno : Nat) (target : Node) (iter : Node) (body : List Node)
      (orelse : List Node)
  | whileS (lineno : Nat) (test : Node) (body : List Node) (orelse : List Node)
  | tryS (lineno : Nat) (body : List Node) (handlers : List Node)
      (orelse : List Node) (finalbody : List Node)
  | exceptHandler (lineno : Nat) (ty : Option Node) (body : List Node)
  | breakS (lineno : Nat)
  | continueS (lineno : Nat)
  | raiseS (lineno : Nat) (exc : Option Node)
  | globalS (lineno : Nat) (names : List String)
  | nonlocalS (lineno : Nat) (names : List String)
  | passS (lineno : Nat)
  | exprS (lineno : Nat) (value : Node)
  | nameE (lineno : Nat) (id : String) (ctx : Ctx)
  | call (lineno : Nat) (func : Node) (args : List Node)
  | constant (lineno : Nat) (value : ConstVal)
  | lambdaE (lineno : Nat) (params : List String) (defaults : List Node)
      (body : Node)
  | listE (lineno : Nat) (elts : List Node)
  | dictE (lineno : Nat) (elts : List Node)
  | setE (lineno : Nat) (elts : List Node)
  | attrE (lineno : Nat) (value : Node) (attr : String)

/- Structural equality on nodes, modelling CPython object identity for
`list.index` (see the conventions above). -/
mutual

def nodeBeq : Node → Node → Bool
  | .module a, y =>
      match y with
      | .module b => nodeListBeq a b
      | _ => false
  | .functionDef l1 n1 p1 d1 b1, y =>
      match y with
      | .functionDef l2 n2 p2 d2 b2 =>
          l1 == l2 && n1 == n2 && p1 == p2 && nodeListBeq d1 d2 && nodeListBeq b1 b2
      | _ => false
  | .classDef l1 n1 s1 b1, y =>
      match y with
      | .classDef l2 n2 s2 b2 =>
          l1 == l2 && n1 == n2 && nodeListBeq s1 s2 && nodeListBeq b1 b2
      | _ => false
  | .ret l1 v1, y =>
      match y with
      | .ret l2 v2 => l1 == l2 && nodeOptBeq v1 v2
      | _ => false
  | .assign l1 t1 v1, y =>
      match y with
      | .assign l2 t2 v2 => l1 == l2 && nodeListBeq t1 t2 && nodeBeq v1 v2
      | _ => false
  | .importS l1 n1, y =>
      match y with
      | .importS l2 n2 => l1 == l2 && n1 == n2
      | _ => false
  | .importFrom l1 m1 n1, y =>
      match y with
      | .importFrom l2 m2 n2 => l1 == l2 && m1 == m2 && n1 == n2
      | _ => false
  | .ifS l1 t1 b1 o1, y =>
      match y with
      | .ifS l2 t2 b2 o2 =>
          l1 == l2 && nodeBeq t1 t2 && nodeListBeq b1 b2 && nodeListBeq o1 o2
      | _ => false
  | .forS l1 tg1 i1 b1 o1, y =>
      match y with
      | .forS l2 tg2 i2 b2 o2 =>
          l1 == l2 && nodeBeq tg1 tg2 && nodeBeq i1 i2 && nodeListBeq b1 b2 &&
            nodeListBeq o1 o2
      | _ => false
  | .whileS l1 t1 b1 o1, y =>
      match y with
      | .whileS l2 t2 b2 o2 =>
          l1 == l2 && nodeBeq t1 t2 && nodeListBeq b1 b2 && nodeListBeq o1 o2
      | _ => false
  | .tryS l1 b1 h1 o1 f1, y =>
      match y with
      | .tryS l2 b2 h2 o2 f2 =>
          l1 == l2 && nodeListBeq b1 b2 && nodeListBeq h1 h2 && nodeListBeq o1 o2 &&
            nodeListBeq f1 f2
      | _ => false
  | .exceptHandler l1 t1 b1, y =>
      match y with
      | .exceptHandler l2 t2 b2 => l1 == l2 && nodeOptBeq t1 t2 && nodeListBeq b1 b2
      | _ => false
  | .breakS l1, y =>
      match y with
      | .breakS l2 => l1 == l2
      | _ => false
  | .continueS l1, y =>
      match y with
      | .continueS l2 => l1 == l2
      | _ => false
  | .raiseS l1 e1, y =>
      match y with
      | .raiseS l2 e2 => l1 == l2 && nodeOptBeq e1 e2
      | _ => false
  | .globalS l1 n1, y =>
      match y with
      | .globalS l2 n2 => l1 == l2 && n1 == n2
      | _ => false
  | .nonlocalS l1 n1, y =>
      match y with
      | .nonlocalS l2 n2 => l1 == l2 && n1 == n2
      | _ => false
  | .passS l1, y =>
      match y with
      | .passS l2 => l1 == l2
      | _ => false
  | .exprS l1 v1, y =>
      match y with
      | .exprS l2 v2 => l1 == l2 && nodeBeq v1 v2
      | _ => false
  | .nameE l1 i1 c1, y =>
      match y with
      | .nameE l2 i2 c2 => l1 == l2 && i1 == i2 && c1 == c2
      | _ => false
  | .call l1 f1 a1, y =>
      match y with
      | .call l2 f2 a2 => l1 == l2 && nodeBeq f1 f2 && nodeListBeq a1 a2
      | _ => false
  | .constant l1 v1, y =>
      match y with
      | .constant l2 v2 => l1 == l2 && v1 == v2
      | _ => false
  | .lambdaE l1 p1 d1 b1, y =>
      match y with
      | .lambdaE l2 p2 d2 b2 =>
          l1 == l2 && p1 == p2 && nodeListBeq d1 d2 && nodeBeq b1 b2
      | _ => false
  | .listE l1 e1, y =>
      match y with
      | .listE l2 e2 => l1 == l2 && nodeListBeq e1 e2
      | _ => false
  | .dictE l1 e1, y =>
      match y with
      | .dictE l2 e2 => l1 == l2 && nodeListBeq e1 e2
      | _ => false
  | .setE l1 e1, y =>
      match y with
      | .setE l2 e2 => l1 == l2 && nodeListBeq e1 e2
      | _ => false
  | .attrE l1 v1 a1, y =>
      match y with
      | .attrE l2 v2 a2 => l1 == l2 && nodeBeq v1 v2 && a1 == a2
      | _ => false

def nodeListBeq : List Node → List Node → Bool
  | [], [] => true
  | a :: as, b :: bs => nodeBeq a b && nodeListBeq as bs
  | _, _ => false

def nodeOptBeq : Option Node → Option Node → Bool
  | Option.none, Option.none => true
  | some a, some b => nodeBeq a b
  | _, _ => false

end

/-- Direct children in `ast.iter_child_nodes` field order (e.g. `If`: test,
body, orelse; `For`: target, iter, body, orelse; `Try`: body, handlers,
orelse, finalbody; `Call`: func, args). -/
def children : Node → List Node
  | .module b => b
  | .functionDef _ _ _ ds b => ds ++ b
  | .classDef _ _ bs b => bs ++ b
  | .ret _ v => v.toList
  | .assign _ ts v => ts ++ [v]
  | .importS _ _ => []
  | .importFrom _ _ _ => []
  | .ifS _ t b o => t :: (b ++ o)
  | .forS _ tg it b o => tg :: it :: (b ++ o)
  | .whileS _ t b o => t :: (b ++ o)
  | .tryS _ b h o f => b ++ h ++ o ++ f
  | .exceptHandler _ ty b => ty.toList ++ b
  | .breakS _ => []
  | .continueS _ => []
  | .raiseS _ e => e.toList
  | .globalS _ _ => []
  | .nonlocalS _ _ => []
  | .passS _ => []
  | .exprS _ v => [v]
  | .nameE _ _ _ => []
  | .call _ f a => f :: a
  | .constant _ _ => []
  | .lambdaE _ _ ds b => ds ++ [b]
  | .listE _ es => es
  | .dictE _ es => es
  | .setE _ es => es
  | .attrE _ v _ => [v]

/- Node count of a tree, the fuel bound for the breadth-first walk. -/
mutual

def size : Node → Nat
  | .module b => 1 + sizeL b
  | .functionDef _ _ _ ds b => 1 + sizeL ds + sizeL b
  | .classDef _ _ bs b => 1 + sizeL bs + sizeL b
  | .ret _ v => 1 + sizeO v
  | .assign _ ts v => 1 + sizeL ts + size v
  | .importS _ _ => 1
  | .importFrom _ _ _ => 1
  | .ifS _ t b o => 1 + size t + sizeL b + sizeL o
  | .forS _ tg it b o => 1 + size tg + size it + sizeL b + sizeL o
  | .whileS _ t b o => 1 + size t + sizeL b + sizeL o
  | .tryS _ b h o f => 1 + sizeL b + sizeL h + sizeL o + sizeL f
  | .exceptHandler _ ty b => 1 + sizeO ty + sizeL b
  | .breakS _ => 1
  | .continueS _ => 1
  | .raiseS _ e => 1 + sizeO e
  | .globalS _ _ => 1
  | .nonlocalS _ _ => 1
  | .passS _ => 1
  | .exprS _ v => 1 + size v
  | .nameE _ _ _ => 1
  | .call _ f a => 1 + size f + sizeL a
  | .constant _ _ => 1
  | .lambdaE _ _ ds b => 1 + sizeL ds + size b
  | .listE _ es => 1 + sizeL es
  | .dictE _ es => 1 + sizeL es
  | .setE _ es => 1 + sizeL es
  | .attrE _ v _ => 1 + size v

def sizeL : List Node → Nat
  | [] => 0
  | n :: ns => size n + sizeL ns

def sizeO : Option Node → Nat
  | Option.none => 0
  | some n => size n

end

/-- A walked node together with its ancestor path, nearest parent first: the
`.parent` chain that `check_line_numbers` installs. -/
abbrev PNode := Node × List Node

/-- Children of a walked node, each recording the extended ancestor path. -/
def kidsP (p : PNode) : List PNode :=
  (children p.1).map (fun c => (c, p.1 :: p.2))

/-- Fuel-indexed breadth-first traversal: `ast.walk` pops the queue front and
pushes the popped node's children on the back.  Any fuel at least the total
size of the queued trees yields the full traversal. -/
def walkFrom : Nat → List PNode → List PNode
  | _, [] => []
  | 0, _ :: _ => []
  | f + 1, p :: q => p :: walkFrom f (q ++ kidsP p)

/-- Total size of the trees queued in a walk. -/
def sumSize (q : List PNode) : Nat := (q.map (fun p => size p.1)).sum

/-- Breadth-first walk of a tree with ancestor paths (`ast.walk` order). -/
def walkA (t : Node) : List PNode := walkFrom (size t) [(t, [])]

/-- Breadth-first walk of a tree, nodes only (`ast.walk` order). -/
def walkN (t : Node) : List Node := (walkA t).map (·.1)

/-- Sub-walk used by per-function rules (`ast.walk(node)` on a subtree). -/
def subWalk (n : Node) : List Node := (walkFrom (size n) [(n, [])]).map (·.1)

/-! String helpers modelling the Python `str` methods the line rules use.
They work on the character list underlying the string (the core `String`
functions go through byte positions, which the kernel cannot evaluate). -/

/-- The whitespace characters `str.strip()` removes (the sources analysed
contain no `\v`/`\f`). -/
def isSpaceChar (c : Char) : Bool := c == ' ' || c == '\t' || c == '\n' || c == '\r'

/-- Python `str.strip()`. -/
def pyStrip (s : String) : String :=
  ⟨((s.toList.dropWhile isSpaceChar).reverse.dropWhile isSpaceChar).reverse⟩

/-- Python `str.rstrip()`. -/
def pyRstrip (s : String) : String :=
  ⟨(s.toList.reverse.dropWhile isSpaceChar).reverse⟩

/-- Python `str.upper()` (ASCII). -/
def pyUpper (s : String) : String := ⟨s.toList.map Char.toUpper⟩

/-- Whether `pat` occurs at the head of `l` (helper for substring search). -/
def leadsWith : List Char → List Char → Bool
  | [], _ => true
  | _ :: _, [] => false
  | a :: as, b :: bs => a == b && leadsWith as bs

/-- Whether `pat` occurs anywhere in `l` (helper for substring search). -/
def hasSubList (pat : List Char) : List Char → Bool
  | [] => pat.isEmpty
  | c :: cs => leadsWith pat (c :: cs) || hasSubList pat cs

/-- Python `sub in s` for strings. -/
def strHas (s sub : String) : Bool := hasSubList sub.toList s.toList

/-- Python `str.startswith`. -/
def startsWithStr (s pat : String) : Bool := leadsWith pat.toList s.toList

/-- Python `str.endswith`. -/
def endsWithStr (s pat : String) : Bool :=
  leadsWith pat.toList.reverse s.toList.reverse

/-- Python `c in s` for a single character. -/
def containsChar (s : String) (c : Char) : Bool := s.toList.contains c

/-- Leading-space count, `len(line) - len(line.lstrip(' '))`. -/
def leadingSpaces (s : String) : Nat :=
  s.length - (s.toList.dropWhile (· == ' ')).length

/-- ASCII character class `[A-Z]`. -/
def isUpperAZ (c : Char) : Bool := 'A' ≤ c && c ≤ 'Z'

/-- ASCII character class `[a-z]`. -/
def isLowerAZ (c : Char) : Bool := 'a' ≤ c && c ≤ 'z'

/-- ASCII character class `[0-9]`. -/
def isDigit09 (c : Char) : Bool := '0' ≤ c && c ≤ '9'

/-- ASCII character class `[a-zA-Z0-9]`. -/
def isAlnumAZ (c : Char) : Bool := isUpperAZ c || isLowerAZ c || isDigit09 c

/-- The class-name pattern `^[A-Z][a-zA-Z0-9]+$` of `check_class_names`:
one uppercase letter followed by at least one alphanumeric. -/
def classNameRe (s : String) : Bool :=
  match s.toList with
  | [] => false
  | c :: rest => isUpperAZ c && !rest.isEmpty && rest.all isAlnumAZ

/-- The snake-case pattern `^[a-z_][a-z0-9_]*$` of `check_function_names` and
`check_variable_names`. -/
def snakeRe (s : String) : Bool :=
  match s.toList with
  | [] => false
  | c :: rest =>
      (isLowerAZ c || c == '_') &&
        rest.all (fun d => isLowerAZ d || isDigit09 d || d == '_')

/-- The constant pattern `^[A-Z0-9_]+$` of `check_constant_names`. -/
def constRe (s : String) : Bool :=
  !s.toList.isEmpty && s.toList.all (fun c => isUpperAZ c || isDigit09 c || c == '_')

/-- Python `str.isupper()` on ASCII identifiers: at least one letter and no
lowercase letter. -/
def pyIsUpper (s : String) : Bool :=
  s.toList.any (fun c => isUpperAZ c || isLowerAZ c) && s.toList.all (fun c => !isLowerAZ c)

/-- Lines paired with their 1-based numbers, `enumerate(self.lines, start=1)`. -/
def enumFrom (i : Nat) : List String → List (Nat × String)
  | [] => []
  | l :: ls => (i, l) :: enumFrom (i + 1) ls

/-! The rule catalog.  Each `check_*` definition mirrors the method of the
same name on `CodeReviewer`; walking rules are the breadth-first walk
flat-mapped over a per-node emission function `em*`, so that "the source
contains none of the rule's pattern" is exactly "`em*` is `[]` on every
walked node". -/

/-- The reserved builtin names of `check_redefined_builtins`. -/
def builtinNames : List String :=
  ["abs", "all", "any", "ascii", "bin", "bool", "breakpoint", "bytearray", "bytes",
   "callable", "chr", "classmethod", "compile", "complex", "delattr", "dict", "dir",
   "divmod", "enumerate", "eval", "exec", "filter", "float", "format", "frozenset",
   "getattr", "globals", "hasattr", "hash", "help", "hex", "id", "input", "int",
   "isinstance", "issubclass", "iter", "len", "list", "locals", "map", "max",
   "memoryview", "min", "next", "object", "oct", "open", "ord", "pow", "print",
   "property", "range", "repr", "reversed", "round", "set", "setattr", "slice",
   "sorted", "staticmethod", "str", "sum", "super", "tuple", "type", "vars", "zip"]

/-- The known magic-method whitelist of `check_magic_methods`. -/
def magicNames : List String :=
  ["__init__", "__str__", "__repr__", "__len__", "__getitem__", "__setitem__",
   "__delitem__", "__iter__", "__next__", "__call__", "__contains__", "__enter__",
   "__exit__", "__add__", "__sub__", "__mul__", "__truediv__", "__floordiv__",
   "__mod__", "__pow__", "__and__", "__or__", "__xor__", "__lt__", "__le__",
   "__gt__", "__ge__", "__eq__", "__ne__"]

/-- Rendering of `self.lines`-independent line numbers in messages. -/
def natStr (n : Nat) : String := toString n

/-- The `lineno` attribute where CPython defines one (`Module` has none; a
`Module` never occurs below the root of a parsed tree, so the `'?'` default
of `check_empty_blocks` is the only reader of the `none` case). -/
def linenoOpt : Node → Option Nat
  | .module _ => Option.none
  | .functionDef l _ _ _ _ => some l
  | .classDef l _ _ _ => some l
  | .ret l _ => some l
  | .assign l _ _ => some l
  | .importS l _ => some l
  | .importFrom l _ _ => some l
  | .ifS l _ _ _ => some l
  | .forS l _ _ _ _ => some l
  | .whileS l _ _ _ => some l
  | .tryS l _ _ _ _ => some l
  | .exceptHandler l _ _ => some l
  | .breakS l => some l
  | .continueS l => some l
  | .raiseS l _ => some l
  | .globalS l _ => some l
  | .nonlocalS l _ => some l
  | .passS l => some l
  | .exprS l _ => some l
  | .nameE l _ _ => some l
  | .call l _ _ => some l
  | .constant l _ => some l
  | .lambdaE l _ _ _ => some l
  | .listE l _ => some l
  | .dictE l _ => some l
  | .setE l _ => some l
  | .attrE l _ _ => some l

/-- Rendering of `getattr(node, 'lineno', '?')`. -/
def lineStr (n : Node) : String :=
  match linenoOpt n with
  | some k => natStr k
  | Option.none => "?"

/-- External Style Adapter fold-in, `check_style`: `pycodestyle`'s
`report.total_errors` is the opaque `styleErrors` signal. -/
def check_style (styleErrors : Nat) : List String :=
  if styleErrors > 0 then ["Style issues found."] else []

/-- Docstring lookup, `ast.get_docstring`: the leading statement's string
constant, if any. -/
def getDocstring : List Node → Option String
  | .exprS _ (.constant _ (.str s)) :: _ => some s
  | _ => Option.none

/-- Truthiness of the cleaned docstring: `not ast.get_docstring(node)` holds
when there is no docstring or `inspect.cleandoc` leaves it empty (the
whitespace-only case). -/
def docMissing (body : List Node) : Bool :=
  match getDocstring body with
  | Option.none => true
  | some s => pyStrip s == ""

/-- Per-node emission of `check_missing_docstrings`. -/
def emDocstring : Node → List String
  | .functionDef _ nm _ _ body =>
      if docMissing body then ["Missing docstring in function '" ++ nm ++ "'."] else []
  | .classDef _ nm _ body =>
      if docMissing body then ["Missing docstring in class '" ++ nm ++ "'."] else []
  | _ => []

/-- Rule `check_missing_docstrings`. -/
def check_missing_docstrings (t : Node) : List String := (walkN t).flatMap emDocstring

/-- Per-node emission of `check_class_names`. -/
def emClassName : Node → List String
  | .classDef _ nm _ _ =>
      if classNameRe nm then [] else ["Class '" ++ nm ++ "' naming style."]
  | _ => []

/-- Rule `check_class_names`. -/
def check_class_names (t : Node) : List String := (walkN t).flatMap emClassName

/-- Per-node emission of `check_function_names`. -/
def emFunctionName : Node → List String
  | .functionDef _ nm _ _ _ =>
      if snakeRe nm then [] else ["Function '" ++ nm ++ "' naming style."]
  | _ => []

/-- Rule `check_function_names`. -/
def check_function_names (t : Node) : List String := (walkN t).flatMap emFunctionName

/-- Per-node emission of `check_variable_names`. -/
def emVariableName : Node → List String
  | .nameE _ id Ctx.store =>
      if snakeRe id then [] else ["Variable '" ++ id ++ "' naming style."]
  | _ => []

/-- Rule `check_variable_names`. -/
def check_variable_names (t : Node) : List String := (walkN t).flatMap emVariableName

/-- Per-node emission of `check_constant_names`. -/
def emConstantName : Node → List String
  | .assign _ targets _ =>
      targets.flatMap fun tg =>
        match tg with
        | .nameE _ id _ =>
            if pyIsUpper id then
              if constRe id then [] else ["Constant '" ++ id ++ "' naming style."]
            else []
        | _ => []
  | _ => []

/-- Rule `check_constant_names`. -/
def check_constant_names (t : Node) : List String := (walkN t).flatMap emConstantName

/-- Top-level module name of an import, `name.split('.')[0]`. -/
def headDot (s : String) : String := ⟨s.toList.takeWhile (fun c => !(c == '.'))⟩

/-- First pass of `check_unused_imports`: the recorded import names —
`alias.name.split('.')[0]` for `import` (the `asname` is ignored), the
module's head (or `''`) for `from … import`. -/
def importsOf (t : Node) : List String :=
  (walkN t).flatMap fun n =>
    match n with
    | .importS _ names => names.map (fun a => headDot a.1)
    | .importFrom _ (some m) _ => [headDot m]
    | .importFrom _ Option.none _ => [""]
    | _ => []

/-- Second pass of `check_unused_imports`: every name read anywhere. -/
def usedNames (t : Node) : List String :=
  (walkN t).flatMap fun n =>
    match n with
    | .nameE _ id Ctx.load => [id]
    | _ => []

/-- Rule `check_unused_imports`. -/
def check_unused_imports (t : Node) : List String :=
  (importsOf t).flatMap fun i =>
    if (usedNames t).contains i then [] else ["Unused import '" ++ i ++ "'."]

/-- Per-node emission of `check_redefined_builtins`. -/
def emRedefined : Node → List String
  | .functionDef _ nm _ _ _ =>
      if builtinNames.contains nm then ["Redefining builtin '" ++ nm ++ "'."] else []
  | .nameE _ id Ctx.store =>
      if builtinNames.contains id then ["Redefining builtin '" ++ id ++ "'."] else []
  | _ => []

/-- Rule `check_redefined_builtins`. -/
def check_redefined_builtins (t : Node) : List String := (walkN t).flatMap emRedefined

/-- Per-node emission of `check_magic_methods`. -/
def emMagicMethod : Node → List String
  | .functionDef _ nm _ _ _ =>
      if startsWithStr nm "__" && endsWithStr nm "__" && !magicNames.contains nm then
        ["Unknown magic method '" ++ nm ++ "'."]
      else []
  | _ => []

/-- Rule `check_magic_methods`. -/
def check_magic_methods (t : Node) : List String := (walkN t).flatMap emMagicMethod

/-- Python `hasattr(node, 'body')`: true for the statement containers and
also for `Lambda`, whose `body` is a single expression. -/
def hasBodyAttr : Node → Bool
  | .module _ => true
  | .functionDef _ _ _ _ _ => true
  | .classDef _ _ _ _ => true
  | .ifS _ _ _ _ => true
  | .forS _ _ _ _ _ => true
  | .whileS _ _ _ _ => true
  | .tryS _ _ _ _ _ => true
  | .exceptHandler _ _ _ => true
  | .lambdaE _ _ _ _ => true
  | _ => false

/-- The `body` attribute when it is a statement list (`Lambda.body` is an
expression, hence `none` there). -/
def bodyAttrList : Node → Option (List Node)
  | .module b => some b
  | .functionDef _ _ _ _ b => some b
  | .classDef _ _ _ b => some b
  | .ifS _ _ b _ => some b
  | .forS _ _ _ b _ => some b
  | .whileS _ _ b _ => some b
  | .tryS _ b _ _ _ => some b
  | .exceptHandler _ _ b => some b
  | _ => Option.none

/-- Whether a node is a `Return`. -/
def isRet : Node → Bool
  | .ret _ _ => true
  | _ => false

/-- The `while parent:` scan: the first node of the `.parent` chain with a
`body` attribute. -/
def chainFind : List Node → Option Node
  | [] => Option.none
  | x :: xs => if hasBodyAttr x then some x else chainFind xs

/-- Python `list.index` modulo the found element: the index of the first
element satisfying `pr`, or `none` (`ValueError`). -/
def idxFind (pr : Node → Bool) : List Node → Option Nat
  | [] => Option.none
  | x :: xs => if pr x then some 0 else (idxFind pr xs).map (· + 1)

/-- The ancestor scan of `check_unreachable_code` for one `Return` node:
walk the `.parent` chain (starting at the node itself) to the first node
with a `body` attribute, locate the `Return` in that list by `list.index`,
and report every later statement.  `Lambda.body` is not a list
(`AttributeError`), and `list.index` raises `ValueError` when the `Return`
sits in another branch of the container (e.g. its `orelse`). -/
def unreachForReturn (r : Node) (chain : List Node) : Except String (List String) :=
  match chainFind chain with
  | Option.none => Except.ok []
  | some p =>
      match bodyAttrList p with
      | Option.none => Except.error "AttributeError: node body is not a list"
      | some b =>
          match idxFind (fun x => nodeBeq x r) b with
          | Option.none => Except.error "ValueError: node is not in list"
          | some i =>
              Except.ok ((b.drop (i + 1)).map fun n =>
                "Unreachable code after return in line " ++ lineStr n ++ ".")

/-- Rule `check_unreachable_code`: the one fallible rule; an exception
aborts the walk and propagates. -/
def check_unreachable_code (t : Node) : Except String (List String) :=
  (walkA t).foldl
    (fun acc p =>
      acc.bind fun is =>
        match isRet p.1 with
        | true => (unreachForReturn p.1 (p.1 :: p.2)).map (fun ms => is ++ ms)
        | false => Except.ok is)
    (Except.ok [])

/-- Whether a node is one of the branching constructs of
`check_too_many_branches` (`If`/`For`/`While`/`Try`). -/
def isBranch : Node → Bool
  | .ifS _ _ _ _ => true
  | .forS _ _ _ _ _ => true
  | .whileS _ _ _ _ => true
  | .tryS _ _ _ _ _ => true
  | _ => false

/-- Per-node emission of `check_too_many_branches`. -/
def emBranches : Node → List String
  | .functionDef l nm ps ds b =>
      let branches := ((subWalk (.functionDef l nm ps ds b)).filter isBranch).length
      if branches > 10 then
        ["Too many branches (" ++ natStr branches ++ ") in function '" ++ nm ++ "'."]
      else []
  | _ => []

/-- Rule `check_too_many_branches`. -/
def check_too_many_branches (t : Node) : List String := (walkN t).flatMap emBranches

/-- Per-node emission of `check_too_many_arguments`
(`len(node.args.args) > 5`). -/
def emArgs : Node → List String
  | .functionDef _ nm ps _ _ =>
      if ps.length > 5 then
        ["Function '" ++ nm ++ "' has too many args (" ++ natStr ps.length ++ ")."]
      else []
  | _ => []

/-- Rule `check_too_many_arguments`. -/
def check_too_many_arguments (t : Node) : List String := (walkN t).flatMap emArgs

/-- Per-node emission of `check_nested_functions` (direct body members). -/
def emNested : Node → List String
  | .functionDef _ nm _ _ body =>
      body.flatMap fun inner =>
        match inner with
        | .functionDef _ inm _ _ _ =>
            ["Nested function '" ++ inm ++ "' in '" ++ nm ++ "'."]
        | _ => []
  | _ => []

/-- Rule `check_nested_functions`. -/
def check_nested_functions (t : Node) : List String := (walkN t).flatMap emNested

/-- Per-node emission of `check_empty_blocks` (a list-valued `body`
attribute of length zero). -/
def emEmptyBlock (n : Node) : List String :=
  match bodyAttrList n with
  | some [] => ["Empty block at line " ++ lineStr n ++ "."]
  | _ => []

/-- Rule `check_empty_blocks`. -/
def check_empty_blocks (t : Node) : List String := (walkN t).flatMap emEmptyBlock

/-- Whether a node is a loop construct (`For`/`While`). -/
def isLoop : Node → Bool
  | .forS _ _ _ _ _ => true
  | .whileS _ _ _ _ => true
  | _ => false

/-- Per-walked-node emission of `check_break_outside_loop`: the `parents`
list of the code is the node followed by its `.parent` chain. -/
def emBreak (p : PNode) : List String :=
  match p.1 with
  | .breakS l =>
      if (p.1 :: p.2).any isLoop then []
      else ["Break outside loop at line " ++ natStr l ++ "."]
  | _ => []

/-- Rule `check_break_outside_loop`. -/
def check_break_outside_loop (t : Node) : List String := (walkA t).flatMap emBreak

/-- Per-walked-node emission of `check_continue_outside_loop`. -/
def emContinue (p : PNode) : List String :=
  match p.1 with
  | .continueS l =>
      if (p.1 :: p.2).any isLoop then []
      else ["Continue outside loop at line " ++ natStr l ++ "."]
  | _ => []

/-- Rule `check_continue_outside_loop`. -/
def check_continue_outside_loop (t : Node) : List String :=
  (walkA t).flatMap emContinue

/-- Per-node emission of `check_raise_without_exception`. -/
def emRaise : Node → List String
  | .raiseS l Option.none => ["Raise without exception at line " ++ natStr l ++ "."]
  | _ => []

/-- Rule `check_raise_without_exception`. -/
def check_raise_without_exception (t : Node) : List String :=
  (walkN t).flatMap emRaise

/-- Whether a node is a function definition (the code also lists
`AsyncFunctionDef`, outside this embedding's universe). -/
def isFuncDef : Node → Bool
  | .functionDef _ _ _ _ _ => true
  | _ => false

/-- Per-walked-node emission of `check_return_outside_function`. -/
def emRetOutside (p : PNode) : List String :=
  match p.1 with
  | .ret l _ =>
      if (p.1 :: p.2).any isFuncDef then []
      else ["Return outside function at line " ++ natStr l ++ "."]
  | _ => []

/-- Rule `check_return_outside_function`. -/
def check_return_outside_function (t : Node) : List String :=
  (walkA t).flatMap emRetOutside

/-- Per-node emission of `check_global_usage` (one finding per name). -/
def emGlobal : Node → List String
  | .globalS l names =>
      names.map (fun nm => "Global variable usage '" ++ nm ++ "' at line " ++ natStr l ++ ".")
  | _ => []

/-- Rule `check_global_usage`. -/
def check_global_usage (t : Node) : List String := (walkN t).flatMap emGlobal

/-- Per-node emission of `check_nonlocal_usage`. -/
def emNonlocal : Node → List String
  | .nonlocalS l names =>
      names.map (fun nm => "Nonlocal usage '" ++ nm ++ "' at line " ++ natStr l ++ ".")
  | _ => []

/-- Rule `check_nonlocal_usage`. -/
def check_nonlocal_usage (t : Node) : List String := (walkN t).flatMap emNonlocal

/-- Whether a node is a mutable literal (`List`/`Dict`/`Set`). -/
def isMutableLit : Node → Bool
  | .listE _ _ => true
  | .dictE _ _ => true
  | .setE _ _ => true
  | _ => false

/-- Per-node emission of `check_mutable_defaults` (one finding per mutable
default). -/
def emMutableDefault : Node → List String
  | .functionDef _ nm _ ds _ =>
      ds.flatMap fun d =>
        if isMutableLit d then ["Mutable default argument in '" ++ nm ++ "'."] else []
  | _ => []

/-- Rule `check_mutable_defaults`. -/
def check_mutable_defaults (t : Node) : List String :=
  (walkN t).flatMap emMutableDefault

/-- Per-node emission of `check_print_statements` (a `Call` whose `func` is
the bare name `print`). -/
def emPrint : Node → List String
  | .call l (.nameE _ fid _) _ =>
      if fid == "print" then ["Print statement at line " ++ natStr l ++ "."] else []
  | _ => []

/-- Rule `check_print_statements`. -/
def check_print_statements (t : Node) : List String := (walkN t).flatMap emPrint

/-- Per-node emission of `check_exec_usage`. -/
def emExec : Node → List String
  | .call l (.nameE _ fid _) _ =>
      if fid == "exec" then ["Exec usage at line " ++ natStr l ++ "."] else []
  | _ => []

/-- Rule `check_exec_usage`. -/
def check_exec_usage (t : Node) : List String := (walkN t).flatMap emExec

/-- Per-node emission of `check_eval_usage`. -/
def emEval : Node → List String
  | .call l (.nameE _ fid _) _ =>
      if fid == "eval" then ["Eval usage at line " ++ natStr l ++ "."] else []
  | _ => []

/-- Rule `check_eval_usage`. -/
def check_eval_usage (t : Node) : List String := (walkN t).flatMap emEval

/-- Per-walked-node emission of `check_pass_statements`: flag a `Pass`
unless its `.parent` is a function, class or `if` (a `Pass` is never the
root of a parsed tree, so the parent access is total). -/
def emPass (p : PNode) : List String :=
  match p.1 with
  | .passS l =>
      match p.2.head? with
      | some (.functionDef _ _ _ _ _) => []
      | some (.classDef _ _ _ _) => []
      | some (.ifS _ _ _ _) => []
      | _ => ["Pass statement at line " ++ natStr l ++ " might be unnecessary."]
  | _ => []

/-- Rule `check_pass_statements`. -/
def check_pass_statements (t : Node) : List String := (walkA t).flatMap emPass

/-- Per-line emission of `check_comment_format` (a stripped line that is
exactly `#`). -/
def emComment (p : Nat × String) : List String :=
  let s := pyStrip p.2
  if startsWithStr s "#" then
    if s.length == 1 then ["Empty comment at line " ++ natStr p.1 ++ "."] else []
  else []

/-- Rule `check_comment_format`. -/
def check_comment_format (lines : List String) : List String :=
  (enumFrom 1 lines).flatMap emComment

/-- Per-node emission of `check_magic_number`: `isinstance(value, (int,
float))` also admits `bool`, but `True`/`False` equal `1`/`0` and so are in
the allowed tuple `(0, 1, -1, 2, -2, …)`. -/
def emMagicNumber : Node → List String
  | .constant l (.int n) =>
      if n = 0 ∨ n = 1 ∨ n = -1 ∨ n = 2 ∨ n = -2 then []
      else ["Magic number '" ++ toString n ++ "' at line " ++ natStr l ++ "."]
  | _ => []

/-- Rule `check_magic_number`. -/
def check_magic_number (t : Node) : List String := (walkN t).flatMap emMagicNumber

/-- Per-node emission of `check_boolean_traps` (an `if` testing a boolean
literal). -/
def emBoolTrap : Node → List String
  | .ifS l (.constant _ (.bool _)) _ _ =>
      ["Boolean literal if at line " ++ natStr l ++ "."]
  | _ => []

/-- Rule `check_boolean_traps`. -/
def check_boolean_traps (t : Node) : List String := (walkN t).flatMap emBoolTrap

/-- Per-line emission of `check_todo_comments` (`'TODO' in line.upper()`). -/
def emTodo (p : Nat × String) : List String :=
  if strHas (pyUpper p.2) "TODO" then ["TODO comment at line " ++ natStr p.1 ++ "."]
  else []

/-- Rule `check_todo_comments`. -/
def check_todo_comments (lines : List String) : List String :=
  (enumFrom 1 lines).flatMap emTodo

/-- Per-line emission of `check_long_lines` (`len(line) > 79`). -/
def emLongLine (p : Nat × String) : List String :=
  if p.2.length > 79 then
    ["Long line (" ++ natStr p.2.length ++ ") at line " ++ natStr p.1 ++ "."]
  else []

/-- Rule `check_long_lines`. -/
def check_long_lines (lines : List String) : List String :=
  (enumFrom 1 lines).flatMap emLongLine

/-- Per-line emission of `check_multiple_imports_on_one_line`. -/
def emMultiImport (p : Nat × String) : List String :=
  if startsWithStr (pyStrip p.2) "import" then
    if containsChar p.2 ',' then
      ["Multiple imports on one line at line " ++ natStr p.1 ++ "."]
    else []
  else []

/-- Rule `check_multiple_imports_on_one_line`. -/
def check_multiple_imports_on_one_line (lines : List String) : List String :=
  (enumFrom 1 lines).flatMap emMultiImport

/-- Per-line emission of `check_bad_indentation` (leading spaces not a
multiple of four on a non-blank line). -/
def emBadIndent (p : Nat × String) : List String :=
  if leadingSpaces p.2 % 4 ≠ 0 && pyStrip p.2 ≠ "" then
    ["Bad indentation at line " ++ natStr p.1 ++ "."]
  else []

/-- Rule `check_bad_indentation`. -/
def check_bad_indentation (lines : List String) : List String :=
  (enumFrom 1 lines).flatMap emBadIndent

/-- Per-line emission of `check_semicolons`. -/
def emSemicolon (p : Nat × String) : List String :=
  if containsChar p.2 ';' && !startsWithStr (pyStrip p.2) "#" then
    ["Semicolon at line " ++ natStr p.1 ++ "."]
  else []

/-- Rule `check_semicolons`. -/
def check_semicolons (lines : List String) : List String :=
  (enumFrom 1 lines).flatMap emSemicolon

/-- Per-line emission of `check_tabs`. -/
def emTab (p : Nat × String) : List String :=
  if containsChar p.2 '\t' then ["Tab character at line " ++ natStr p.1 ++ "."] else []

/-- Rule `check_tabs`. -/
def check_tabs (lines : List String) : List String :=
  (enumFrom 1 lines).flatMap emTab

/-- Per-line emission of `check_trailing_whitespace`
(`line.rstrip() != line`). -/
def emTrailing (p : Nat × String) : List String :=
  if pyRstrip p.2 ≠ p.2 then ["Trailing whitespace at line " ++ natStr p.1 ++ "."]
  else []

/-- Rule `check_trailing_whitespace`. -/
def check_trailing_whitespace (lines : List String) : List String :=
  (enumFrom 1 lines).flatMap emTrailing

/-- Per-line emission of `check_multiple_statements` (more than one `;` on
the stripped line). -/
def emMultiStmt (p : Nat × String) : List String :=
  if (pyStrip p.2).toList.count ';' > 1 then
    ["Multiple statements at line " ++ natStr p.1 ++ "."]
  else []

/-- Rule `check_multiple_statements`. -/
def check_multiple_statements (lines : List String) : List String :=
  (enumFrom 1 lines).flatMap emMultiStmt

/-- Per-node emission of `check_exception_handling` (a `Try` with no
handlers). -/
def emTryNoExcept : Node → List String
  | .tryS l _ [] _ _ => ["Try without except at line " ++ natStr l ++ "."]
  | _ => []

/-- Rule `check_exception_handling`. -/
def check_exception_handling (t : Node) : List String :=
  (walkN t).flatMap emTryNoExcept

/-- Per-node emission of `check_empty_exceptions` (a typeless handler). -/
def emCatchAll : Node → List String
  | .exceptHandler l Option.none _ => ["Catch-all except at line " ++ natStr l ++ "."]
  | _ => []

/-- Rule `check_empty_exceptions`. -/
def check_empty_exceptions (t : Node) : List String := (walkN t).flatMap emCatchAll

/-- Per-node emission of `check_useless_else_on_loop`. -/
def emLoopElse : Node → List String
  | .forS l _ _ _ (_ :: _) => ["Else on loop at line " ++ natStr l ++ "."]
  | .whileS l _ _ (_ :: _) => ["Else on loop at line " ++ natStr l ++ "."]
  | _ => []

/-- Rule `check_useless_else_on_loop`. -/
def check_useless_else_on_loop (t : Node) : List String :=
  (walkN t).flatMap emLoopElse

/-- Per-node emission of `check_direct_exit_calls` (`exit`/`quit` called by
name). -/
def emExitCall : Node → List String
  | .call l (.nameE _ fid _) _ =>
      if fid == "exit" || fid == "quit" then
        ["Direct " ++ fid ++ " call at line " ++ natStr l ++ "."]
      else []
  | _ => []

/-- Rule `check_direct_exit_calls`. -/
def check_direct_exit_calls (t : Node) : List String := (walkN t).flatMap emExitCall

/-- Rule `check_recursion_limit`: the method body is `pass`. -/
def check_recursion_limit : List String := []

/-- Per-node emission of `check_lambda_usage`. -/
def emLambda : Node → List String
  | .lambdaE l _ _ _ => ["Lambda usage at line " ++ natStr l ++ "."]
  | _ => []

/-- Rule `check_lambda_usage`. -/
def check_lambda_usage (t : Node) : List String := (walkN t).flatMap emLambda

/-- Per-line emission of `check_format_vs_fstring` (`.format(` and `print`
both occurring in the raw line). -/
def emFormat (p : Nat × String) : List String :=
  if strHas p.2 ".format(" && strHas p.2 "print" then
    ["Consider f-string at line " ++ natStr p.1 ++ "."]
  else []

/-- Rule `check_format_vs_fstring`. -/
def check_format_vs_fstring (lines : List String) : List String :=
  (enumFrom 1 lines).flatMap emFormat

/-- Per-node emission of `check_mutable_class_vars` (a direct class-body
assignment of a mutable literal, one finding per `Name` target). -/
def emMutableClassVar : Node → List String
  | .classDef _ _ _ body =>
      body.flatMap fun b =>
        match b with
        | .assign l targets value =>
            targets.flatMap fun tg =>
              match tg with
              | .nameE _ id _ =>
                  if isMutableLit value then
                    ["Mutable class var '" ++ id ++ "' at line " ++ natStr l ++ "."]
                  else []
              | _ => []
        | _ => []
  | _ => []

/-- Rule `check_mutable_class_vars`. -/
def check_mutable_class_vars (t : Node) : List String :=
  (walkN t).flatMap emMutableClassVar

/-- Value-presence flags of the `Return` statements inside a function, in
sub-walk order. -/
def returnFlags (n : Node) : List Bool :=
  (subWalk n).flatMap fun s =>
    match s with
    | .ret _ v => [v.isSome]
    | _ => []

/-- Per-node emission of `check_inconsistent_return`
(`len(set(returns)) > 1`: both flavours of `return` occur). -/
def emInconsistentRet : Node → List String
  | .functionDef l nm ps ds b =>
      let fs := returnFlags (.functionDef l nm ps ds b)
      if fs.contains true && fs.contains false then
        ["Inconsistent return in '" ++ nm ++ "'."]
      else []
  | _ => []

/-- Rule `check_inconsistent_return`. -/
def check_inconsistent_return (t : Node) : List String :=
  (walkN t).flatMap emInconsistentRet

/-- Rendering of `f"{node.module}"` (`None` when absent). -/
def modlStr : Option String → String
  | some m => m
  | Option.none => "None"

/-- Per-node emission of `check_wildcard_imports` (one finding per `*`
alias). -/
def emWildcard : Node → List String
  | .importFrom l modl names =>
      names.flatMap fun a =>
        if a.1 == "*" then
          ["Wildcard import from '" ++ modlStr modl ++ "' at line " ++ natStr l ++ "."]
        else []
  | _ => []

/-- Rule `check_wildcard_imports`. -/
def check_wildcard_imports (t : Node) : List String := (walkN t).flatMap emWildcard

/-- The scan of `check_multiple_consecutive_blank_lines`: count blank lines
and report a non-blank line preceded by more than two (a trailing blank run
is never reported). -/
def blanksAux : Nat → Nat → List String → List String
  | _, _, [] => []
  | i, cnt, l :: ls =>
      if pyStrip l == "" then blanksAux (i + 1) (cnt + 1) ls
      else
        (if cnt > 2 then ["Multiple blank lines before line " ++ natStr i ++ "."]
         else []) ++ blanksAux (i + 1) 0 ls

/-- Rule `check_multiple_consecutive_blank_lines`. -/
def check_multiple_consecutive_blank_lines (lines : List String) : List String :=
  blanksAux 1 0 lines

/-- Per-node emission of `check_very_large_functions` (more than 50 direct
body statements). -/
def emLargeFunction : Node → List String
  | .functionDef _ nm _ _ b =>
      if b.length > 50 then
        ["Large function '" ++ nm ++ "' with " ++ natStr b.length ++ " lines."]
      else []
  | _ => []

/-- Rule `check_very_large_functions`. -/
def check_very_large_functions (t : Node) : List String :=
  (walkN t).flatMap emLargeFunction

/-! The engine: reviewer state, the ordered catalog, and `analyze`. -/

/-- The analyzer's state, `CodeReviewer.__init__`: `self.issues`,
`self.lines`, `self.tree`. -/
structure Reviewer where
  issues : List String
  lines : List String
  tree : Option Node

/-- A freshly constructed `CodeReviewer()`. -/
def initReviewer : Reviewer := ⟨[], [], Option.none⟩

/-- Method `load_code`: install the split source lines. -/
def load_code (r : Reviewer) (lines : List String) : Reviewer :=
  { r with lines := lines }

/-- Method `parse_code`: install the parsed tree, or append the single
`SyntaxError` diagnostic — note the old tree is kept on failure. -/
def parse_code (r : Reviewer) (pres : Except String Node) : Reviewer :=
  match pres with
  | Except.ok t => { r with tree := some t }
  | Except.error e => { r with issues := r.issues ++ ["SyntaxError: " ++ e] }

/-- Method `get_issues`. -/
def get_issues (r : Reviewer) : List String := r.issues

/-- A catalog entry as `analyze` invokes it: a rule reading the tree, the
raw lines and the opaque style signal; pure rules are wrapped in
`Except.ok`, and `check_unreachable_code`'s exception propagates. -/
abbrev Check := Node → List String → Nat → Except String (List String)

/-- The fixed rule catalog in the order `analyze` runs it
(`check_line_numbers`, the Context Linker, runs first and contributes no
diagnostics; ancestry is carried by the walk here). -/
def catalog : List Check :=
  [fun _ _ st => Except.ok (check_style st),
   fun t _ _ => Except.ok (check_missing_docstrings t),
   fun t _ _ => Except.ok (check_class_names t),
   fun t _ _ => Except.ok (check_function_names t),
   fun t _ _ => Except.ok (check_variable_names t),
   fun t _ _ => Except.ok (check_constant_names t),
   fun t _ _ => Except.ok (check_unused_imports t),
   fun t _ _ => Except.ok (check_redefined_builtins t),
   fun t _ _ => Except.ok (check_magic_methods t),
   fun t _ _ => check_unreachable_code t,
   fun t _ _ => Except.ok (check_too_many_branches t),
   fun t _ _ => Except.ok (check_too_many_arguments t),
   fun t _ _ => Except.ok (check_nested_functions t),
   fun t _ _ => Except.ok (check_empty_blocks t),
   fun t _ _ => Except.ok (check_break_outside_loop t),
   fun t _ _ => Except.ok (check_continue_outside_loop t),
   fun t _ _ => Except.ok (check_raise_without_exception t),
   fun t _ _ => Except.ok (check_return_outside_function t),
   fun t _ _ => Except.ok (check_global_usage t),
   fun t _ _ => Except.ok (check_nonlocal_usage t),
   fun t _ _ => Except.ok (check_mutable_defaults t),
   fun t _ _ => Except.ok (check_print_statements t),
   fun t _ _ => Except.ok (check_exec_usage t),
   fun t _ _ => Except.ok (check_eval_usage t),
   fun t _ _ => Except.ok (check_pass_statements t),
   fun _ ls _ => Except.ok (check_comment_format ls),
   fun t _ _ => Except.ok (check_magic_number t),
   fun t _ _ => Except.ok (check_boolean_traps t),
   fun _ ls _ => Except.ok (check_todo_comments ls),
   fun _ ls _ => Except.ok (check_long_lines ls),
   fun _ ls _ => Except.ok (check_multiple_imports_on_one_line ls),
   fun _ ls _ => Except.ok (check_bad_indentation ls),
   fun _ ls _ => Except.ok (check_semicolons ls),
   fun _ ls _ => Except.ok (check_tabs ls),
   fun _ ls _ => Except.ok (check_trailing_whitespace ls),
   fun _ ls _ => Except.ok (check_multiple_statements ls),
   fun t _ _ => Except.ok (check_exception_handling t),
   fun t _ _ => Except.ok (check_empty_exceptions t),
   fun t _ _ => Except.ok (check_useless_else_on_loop t),
   fun t _ _ => Except.ok (check_direct_exit_calls t),
   fun _ _ _ => Except.ok check_recursion_limit,
   fun t _ _ => Except.ok (check_lambda_usage t),
   fun _ ls _ => Except.ok (check_format_vs_fstring ls),
   fun t _ _ => Except.ok (check_mutable_class_vars t),
   fun t _ _ => Except.ok (check_inconsistent_return t),
   fun t _ _ => Except.ok (check_wildcard_imports t),
   fun _ ls _ => Except.ok (check_multiple_consecutive_blank_lines ls),
   fun t _ _ => Except.ok (check_very_large_functions t)]

/-- One engine step: run the next rule and append its findings (the shared
`self.issues` list only ever grows; an exception aborts the pass). -/
def stepCheck (t : Node) (lines : List String) (st : Nat)
    (acc : Except String (List String)) (c : Check) : Except String (List String) :=
  acc.bind fun is => (c t lines st).map (fun ms => is ++ ms)

/-- The findings accumulated after the first `k` rules of the catalog. -/
def runChecksTo (k : Nat) (t : Node) (lines : List String) (st : Nat) :
    Except String (List String) :=
  (catalog.take k).foldl (stepCheck t lines st) (Except.ok [])

/-- All findings of one full pass over the catalog. -/
def runChecks (t : Node) (lines : List String) (st : Nat) :
    Except String (List String) :=
  catalog.foldl (stepCheck t lines st) (Except.ok [])

/-- Method `analyze`: split the source (`lines`), parse it (`pres`), stop if
no tree is present, otherwise run the full catalog and accumulate onto
`self.issues`.  The `Except` models an uncaught rule exception crossing the
`analyze` boundary. -/
def analyze (r : Reviewer) (pres : Except String Node) (lines : List String)
    (st : Nat) : Except String Reviewer :=
  let r1 := load_code r lines
  let r2 := parse_code r1 pres
  match r2.tree with
  | Option.none => Except.ok r2
  | some t =>
      (runChecks t r2.lines st).map fun is => { r2 with issues := r2.issues ++ is }

/-! Specification-side definitions, used to state the claims against the
embedding above and written independently of the walk/catalog machinery. -/

/-- Whether a node is a `Break`. -/
def isBreak : Node → Bool
  | .breakS _ => true
  | _ => false

/-- Whether a node is a `Continue`. -/
def isContinue : Node → Bool
  | .continueS _ => true
  | _ => false

/- The spec-side count of nodes satisfying `pr` that have no loop construct
(`For`/`While`) among their structural ancestors; `il` records whether an
enclosing loop has already been passed.  Defined by direct structural
recursion, independently of the breadth-first walk and the `.parent`
chains. -/
mutual

def noLoopCnt (pr : Node → Bool) (il : Bool) : Node → Nat
  | .module b => (if pr (.module b) && !il then 1 else 0) + noLoopCntL pr il b
  | .functionDef l nm ps ds b =>
      (if pr (.functionDef l nm ps ds b) && !il then 1 else 0) +
        (noLoopCntL pr il ds + noLoopCntL pr il b)
  | .classDef l nm bs b =>
      (if pr (.classDef l nm bs b) && !il then 1 else 0) +
        (noLoopCntL pr il bs + noLoopCntL pr il b)
  | .ret l v => (if pr (.ret l v) && !il then 1 else 0) + noLoopCntO pr il v
  | .assign l ts v =>
      (if pr (.assign l ts v) && !il then 1 else 0) +
        (noLoopCntL pr il ts + noLoopCnt pr il v)
  | .importS l ns => (if pr (.importS l ns) && !il then 1 else 0)
  | .importFrom l m ns => (if pr (.importFrom l m ns) && !il then 1 else 0)
  | .ifS l t b o =>
      (if pr (.ifS l t b o) && !il then 1 else 0) +
        (noLoopCnt pr il t + noLoopCntL pr il b + noLoopCntL pr il o)
  | .forS l tg it b o =>
      (if pr (.forS l tg it b o) && !il then 1 else 0) +
        (noLoopCnt pr true tg + noLoopCnt pr true it + noLoopCntL pr true b +
          noLoopCntL pr true o)
  | .whileS l t b o =>
      (if pr (.whileS l t b o) && !il then 1 else 0) +
        (noLoopCnt pr true t + noLoopCntL pr true b + noLoopCntL pr true o)
  | .tryS l b h o f =>
      (if pr (.tryS l b h o f) && !il then 1 else 0) +
        (noLoopCntL pr il b + noLoopCntL pr il h + noLoopCntL pr il o +
          noLoopCntL pr il f)
  | .exceptHandler l ty b =>
      (if pr (.exceptHandler l ty b) && !il then 1 else 0) +
        (noLoopCntO pr il ty + noLoopCntL pr il b)
  | .breakS l => (if pr (.breakS l) && !il then 1 else 0)
  | .continueS l => (if pr (.continueS l) && !il then 1 else 0)
  | .raiseS l e => (if pr (.raiseS l e) && !il then 1 else 0) + noLoopCntO pr il e
  | .globalS l ns => (if pr (.globalS l ns) && !il then 1 else 0)
  | .nonlocalS l ns => (if pr (.nonlocalS l ns) && !il then 1 else 0)
  | .passS l => (if pr (.passS l) && !il then 1 else 0)
  | .exprS l v => (if pr (.exprS l v) && !il then 1 else 0) + noLoopCnt pr il v
  | .nameE l i c => (if pr (.nameE l i c) && !il then 1 else 0)
  | .call l f a =>
      (if pr (.call l f a) && !il then 1 else 0) +
        (noLoopCnt pr il f + noLoopCntL pr il a)
  | .constant l v => (if pr (.constant l v) && !il then 1 else 0)
  | .lambdaE l ps ds b =>
      (if pr (.lambdaE l ps ds b) && !il then 1 else 0) +
        (noLoopCntL pr il ds + noLoopCnt pr il b)
  | .listE l es => (if pr (.listE l es) && !il then 1 else 0) + noLoopCntL pr il es
  | .dictE l es => (if pr (.dictE l es) && !il then 1 else 0) + noLoopCntL pr il es
  | .setE l es => (if pr (.setE l es) && !il then 1 else 0) + noLoopCntL pr il es
  | .attrE l v a =>
      (if pr (.attrE l v a) && !il then 1 else 0) + noLoopCnt pr il v

def noLoopCntL (pr : Node → Bool) (il : Bool) : List Node → Nat
  | [] => 0
  | n :: ns => noLoopCnt pr il n + noLoopCntL pr il ns

def noLoopCntO (pr : Node → Bool) (il : Bool) : Option Node → Nat
  | Option.none => 0
  | some n => noLoopCnt pr il n

end

/-- No element of the list is a `Return`. -/
def noRetL (l : List Node) : Bool := l.all (fun n => !isRet n)

/-- The optional node, if present, is not a `Return`. -/
def noRetO : Option Node → Bool
  | Option.none => true
  | some n => !isRet n

/-- Every `Return` in the list stands at the final position. -/
def lastOnlyRet : List Node → Bool
  | [] => true
  | [_] => true
  | n :: m :: rest => !isRet n && lastOnlyRet (m :: rest)

/-- The element `c` is found by `list.index` in `b` with nothing after it. -/
def finalIn (b : List Node) (c : Node) : Bool :=
  match idxFind (fun x => nodeBeq x c) b with
  | some i => (b.drop (i + 1)).isEmpty
  | Option.none => false

/-- Placement invariant carried through the walk: a `Return` node is the
final, locatable element of its parent's `body` list (trivially true at the
root, where the ancestor scan finds no body-carrying node). -/
def retPosOK (n : Node) (anc : List Node) : Bool :=
  !isRet n ||
    (match anc with
     | [] => true
     | p0 :: _ =>
         match bodyAttrList p0 with
         | some b => finalIn b n
         | Option.none => false)

/- The return-placement discipline under which `check_unreachable_code`
reports nothing and raises nothing: every `Return` in the tree occurs only
as the final statement of the `body` list of its immediate container, never
in an `orelse`/`finally`/handler-list slot or inside a plain expression
position.  This is the spec's "code statements appearing after a `Return`"
pattern being absent, together with the node-shape assumptions the rule
makes. -/
mutual

def retOK : Node → Bool
  | .module b => lastOnlyRet b && retOKL b
  | .functionDef _ _ _ ds b => noRetL ds && lastOnlyRet b && retOKL ds && retOKL b
  | .classDef _ _ bs b => noRetL bs && lastOnlyRet b && retOKL bs && retOKL b
  | .ret _ v => noRetO v && retOKO v
  | .assign _ ts v => noRetL ts && !isRet v && retOKL ts && retOK v
  | .importS _ _ => true
  | .importFrom _ _ _ => true
  | .ifS _ t b o => !isRet t && lastOnlyRet b && noRetL o && retOK t && retOKL b && retOKL o
  | .forS _ tg it b o =>
      !isRet tg && !isRet it && lastOnlyRet b && noRetL o && retOK tg && retOK it &&
        retOKL b && retOKL o
  | .whileS _ t b o =>
      !isRet t && lastOnlyRet b && noRetL o && retOK t && retOKL b && retOKL o
  | .tryS _ b h o f =>
      lastOnlyRet b && noRetL h && noRetL o && noRetL f && retOKL b && retOKL h &&
        retOKL o && retOKL f
  | .exceptHandler _ ty b => noRetO ty && lastOnlyRet b && retOKO ty && retOKL b
  | .breakS _ => true
  | .continueS _ => true
  | .raiseS _ e => noRetO e && retOKO e
  | .globalS _ _ => true
  | .nonlocalS _ _ => true
  | .passS _ => true
  | .exprS _ v => !isRet v && retOK v
  | .nameE _ _ _ => true
  | .call _ f a => !isRet f && noRetL a && retOK f && retOKL a
  | .constant _ _ => true
  | .lambdaE _ _ ds b => noRetL ds && !isRet b && retOKL ds && retOK b
  | .listE _ es => noRetL es && retOKL es
  | .dictE _ es => noRetL es && retOKL es
  | .setE _ es => noRetL es && retOKL es
  | .attrE _ v _ => !isRet v && retOK v

def retOKL : List Node → Bool
  | [] => true
  | n :: ns => retOK n && retOKL ns

def retOKO : Option Node → Bool
  | Option.none => true
  | some n => retOK n

end

/-- Maximal runs of blank lines that precede a further line have length at
most two (the pattern `check_multiple_consecutive_blank_lines` flags being
absent); `cnt` is the length of the blank run already passed. -/
def blankRunOK : Nat → List String → Bool
  | _, [] => true
  | cnt, l :: ls =>
      if pyStrip l == "" then blankRunOK (cnt + 1) ls
      else cnt ≤ 2 && blankRunOK 0 ls

/-- The class-name pattern as the spec words it ("leading uppercase,
alphanumeric"): an uppercase letter followed by any number (possibly zero)
of alphanumerics.  Stated for comparison with the code's `classNameRe`,
which demands at least one character after the leading letter. -/
def specClassNamePat (s : String) : Bool :=
  match s.toList with
  | [] => false
  | c :: rest => isUpperAZ c && rest.all isAlnumAZ

/-- The pair invariant of the unreachable-code scan. -/
def pairRetOK (p : PNode) : Prop := retOK p.1 = true ∧ retPosOK p.1 p.2 = true

/-! Concrete parsed inputs for the scenario theorems.  Each tree/line pair
is what `ast.parse` and `code.split('\n')` produce for the quoted source. -/

/-- Tree of `"x = 0\n"`, a source flagged by no rule. -/
def cleanTree : Node :=
  .module [.assign 1 [.nameE 1 "x" Ctx.store] (.constant 1 (.int 0))]

/-- Lines of `"x = 0\n"`. -/
def cleanLines : List String := ["x = 0", ""]

/-- Tree of `"print(5)\n"`. -/
def printTree : Node :=
  .module [.exprS 1 (.call 1 (.nameE 1 "print" Ctx.load) [.constant 1 (.int 5)])]

/-- Lines of `"print(5)\n"`. -/
def printLines : List String := ["print(5)", ""]

/-- Tree of `"print(0)\n"`: a `print` call and nothing else; no pattern of
the spec's rule catalog (section 4.3) occurs in it. -/
def printZeroTree : Node :=
  .module [.exprS 1 (.call 1 (.nameE 1 "print" Ctx.load) [.constant 1 (.int 0)])]

/-- Lines of `"print(0)\n"`. -/
def printZeroLines : List String := ["print(0)", ""]

/-- Tree of `"def f():\n    if c:\n        x()\n    else:\n        return\n"`:
a well-formed source whose one `return` sits in the `else` branch of its
enclosing `if`. -/
def elseRetTree : Node :=
  .module [.functionDef 1 "f" [] []
    [.ifS 2 (.nameE 2 "c" Ctx.load)
      [.exprS 3 (.call 3 (.nameE 3 "x" Ctx.load) [])]
      [.ret 5 Option.none]]]

/-- Lines of the `else`-return source. -/
def elseRetLines : List String :=
  ["def f():", "    if c:", "        x()", "    else:", "        return", ""]

/-- Tree of `"def f():\n  return\n  x()\n"`. -/
def unreachTree : Node :=
  .module [.functionDef 1 "f" [] []
    [.ret 2 Option.none, .exprS 3 (.call 3 (.nameE 3 "x" Ctx.load) [])]]

/-- Lines of `"def f():\n  return\n  x()\n"`. -/
def unreachLines : List String := ["def f():", "  return", "  x()", ""]

/-- Tree of `"def f():\n  return\n"`. -/
def retOnlyTree : Node :=
  .module [.functionDef 1 "f" [] [] [.ret 2 Option.none]]

/-- Lines of `"def f():\n  return\n"`. -/
def retOnlyLines : List String := ["def f():", "  return", ""]

/-- Tree of `"break\n"` (CPython's parser accepts a top-level `break`; the
break-outside-loop error is raised later, at compile time). -/
def topBreakTree : Node := .module [.breakS 1]

/-- Lines of `"break\n"`. -/
def topBreakLines : List String := ["break", ""]

/-- Tree of `"for i in s:\n    if c:\n        break\n"`: a `break` inside an
`if` inside a `for`. -/
def forBreakTree : Node :=
  .module [.forS 1 (.nameE 1 "i" Ctx.store) (.nameE 1 "s" Ctx.load)
    [.ifS 2 (.nameE 2 "c" Ctx.load) [.breakS 3] []] []]

/-- Tree of `"import x as y\ny()\n"`: the module is used only through its
alias. -/
def aliasImportTree : Node :=
  .module [.importS 1 [("x", some "y")],
    .exprS 2 (.call 2 (.nameE 2 "y" Ctx.load) [])]

/-- Tree of `"from m import f\nf()\n"`: the imported name is used, the
module name is not. -/
def fromImportTree : Node :=
  .module [.importFrom 1 (some "m") [("f", Option.none)],
    .exprS 2 (.call 2 (.nameE 2 "f" Ctx.load) [])]

/-- Tree of `"import a.b as c\nc()\n"`: a dotted import under an alias. -/
def dottedImportTree : Node :=
  .module [.importS 1 [("a.b", some "c")],
    .exprS 2 (.call 2 (.nameE 2 "c" Ctx.load) [])]

/-- Tree of `"class A:\n    pass\n"`: a single-character class name. -/
def classATree : Node := .module [.classDef 1 "A" [] [.passS 2]]

/-! Lemmas. -/

/- Reflexivity of the structural node equality. -/
set_option maxHeartbeats 2000000 in
mutual

theorem nodeBeq_refl : ∀ n, nodeBeq n n = true
  | .module b => by simp [nodeBeq, nodeListBeq_refl b]
  | .functionDef l nm ps ds b => by
      simp [nodeBeq, nodeListBeq_refl ds, nodeListBeq_refl b]
  | .classDef l nm bs b => by simp [nodeBeq, nodeListBeq_refl bs, nodeListBeq_refl b]
  | .ret l v => by simp [nodeBeq, nodeOptBeq_refl v]
  | .assign l ts v => by simp [nodeBeq, nodeListBeq_refl ts, nodeBeq_refl v]
  | .importS l ns => by simp [nodeBeq]
  | .importFrom l m ns => by simp [nodeBeq]
  | .ifS l t b o => by
      simp [nodeBeq, nodeBeq_refl t, nodeListBeq_refl b, nodeListBeq_refl o]
  | .forS l tg it b o => by
      simp [nodeBeq, nodeBeq_refl tg, nodeBeq_refl it, nodeListBeq_refl b,
        nodeListBeq_refl o]
  | .whileS l t b o => by
      simp [nodeBeq, nodeBeq_refl t, nodeListBeq_refl b, nodeListBeq_refl o]
  | .tryS l b h o f => by
      simp [nodeBeq, nodeListBeq_refl b, nodeListBeq_refl h, nodeListBeq_refl o,
        nodeListBeq_refl f]
  | .exceptHandler l ty b => by
      simp [nodeBeq, nodeOptBeq_refl ty, nodeListBeq_refl b]
  | .breakS l => by simp [nodeBeq]
  | .continueS l => by simp [nodeBeq]
  | .raiseS l e => by simp [nodeBeq, nodeOptBeq_refl e]
  | .globalS l ns => by simp [nodeBeq]
  | .nonlocalS l ns => by simp [nodeBeq]
  | .passS l => by simp [nodeBeq]
  | .exprS l v => by simp [nodeBeq, nodeBeq_refl v]
  | .nameE l i c => by simp [nodeBeq]
  | .call l f a => by simp [nodeBeq, nodeBeq_refl f, nodeListBeq_refl a]
  | .constant l v => by simp [nodeBeq]
  | .lambdaE l ps ds b => by simp [nodeBeq, nodeListBeq_refl ds, nodeBeq_refl b]
  | .listE l es => by simp [nodeBeq, nodeListBeq_refl es]
  | .dictE l es => by simp [nodeBeq, nodeListBeq_refl es]
  | .setE l es => by simp [nodeBeq, nodeListBeq_refl es]
  | .attrE l v a => by simp [nodeBeq, nodeBeq_refl v]

theorem nodeListBeq_refl : ∀ l, nodeListBeq l l = true
  | [] => rfl
  | n :: ns => by simp [nodeListBeq, nodeBeq_refl n, nodeListBeq_refl ns]

theorem nodeOptBeq_refl : ∀ o, nodeOptBeq o o = true
  | Option.none => rfl
  | some n => by simp [nodeOptBeq, nodeBeq_refl n]

end

/-- A non-`Return` node is never structurally equal to a `Return`. -/
theorem nodeBeq_ret_ne (x c : Node) (hc : isRet c = true) (hx : isRet x = false) :
    nodeBeq x c = false := by
  cases c <;> simp [isRet] at hc
  cases x <;> simp [isRet] at hx <;> simp [nodeBeq]

/-- Every tree has at least one node. -/
theorem size_pos : ∀ n, 0 < size n := by
  intro n; cases n <;> simp [size]

/-- `sizeL` over an append. -/
theorem sizeL_append : ∀ a b : List Node, sizeL (a ++ b) = sizeL a + sizeL b := by
  intro a b; induction a with
  | nil => simp [sizeL]
  | cons n ns ih => simp [sizeL, ih]; omega

/-- `sizeL` of an option's list view. -/
theorem sizeL_toList : ∀ o : Option Node, sizeL o.toList = sizeO o := by
  intro o; cases o <;> simp [sizeL, sizeO]

/-- `sizeL` as a mapped sum. -/
theorem sizeL_eq_sum : ∀ l : List Node, sizeL l = (l.map size).sum := by
  intro l; induction l with
  | nil => rfl
  | cons n ns ih => simp [sizeL, ih]

/-- A node's size is one more than its children's total size. -/
theorem size_children : ∀ n, size n = 1 + sizeL (children n) := by
  intro n
  cases n <;> simp [size, children, sizeL_append, sizeL_toList, sizeL, sizeO] <;> omega

/-- The breadth-first walk preserves any property that passes from a walked
node to its children. -/
theorem walkFrom_pres (P : PNode → Prop)
    (hP : ∀ p, P p → ∀ c ∈ kidsP p, P c) :
    ∀ (f : Nat) (q : List PNode), (∀ p ∈ q, P p) → ∀ p ∈ walkFrom f q, P p := by
  intro f
  induction f with
  | zero =>
      intro q hq p hp
      cases q with
      | nil => simp [walkFrom] at hp
      | cons a l => simp [walkFrom] at hp
  | succ f ih =>
      intro q hq p hp
      cases q with
      | nil => simp [walkFrom] at hp
      | cons a l =>
          rw [walkFrom] at hp
          rcases List.mem_cons.mp hp with h | h
          · exact h ▸ hq a (List.mem_cons_self a l)
          · refine ih (l ++ kidsP a) ?_ p h
            intro r hr
            rcases List.mem_append.mp hr with h' | h'
            · exact hq r (List.mem_cons_of_mem a h')
            · exact hP a (hq a (List.mem_cons_self a l)) r h'

/-- Membership in a `retOKL`-good list gives `retOK`. -/
theorem retOKL_mem : ∀ l, retOKL l = true → ∀ c ∈ l, retOK c = true := by
  intro l
  induction l with
  | nil => intro _ c hc; simp at hc
  | cons n ns ih =>
      intro h c hc
      rw [retOKL, Bool.and_eq_true] at h
      rcases List.mem_cons.mp hc with h' | h'
      · exact h' ▸ h.1
      · exact ih h.2 c h'

/-- `retOKL` over an append. -/
theorem retOKL_append : ∀ a b : List Node,
    retOKL (a ++ b) = (retOKL a && retOKL b) := by
  intro a b
  induction a with
  | nil => simp [retOKL]
  | cons n ns ih => simp [retOKL, ih, Bool.and_assoc]

/-- `retOKL` of an option's list view. -/
theorem retOKL_toList : ∀ o : Option Node, retOKL o.toList = retOKO o := by
  intro o; cases o <;> simp [retOKL, retOKO]

/-- The children of a `retOK` node form a `retOKL` list. -/
theorem retOK_children : ∀ n, retOK n = true → retOKL (children n) = true := by
  intro n h
  cases n <;>
    simp_all [retOK, children, retOKL_append, retOKL_toList, retOKL]

/-- Membership in a `noRetL` list means not a `Return`. -/
theorem noRetL_mem : ∀ l, noRetL l = true → ∀ c ∈ l, isRet c = false := by
  intro l h c hc
  have := List.all_eq_true.mp h c hc
  simpa using this

/-- A mismatching head element shifts `finalIn` to the tail. -/
theorem finalIn_cons_ne (x : Node) (l : List Node) (c : Node)
    (h : nodeBeq x c = false) : finalIn (x :: l) c = finalIn l c := by
  rw [finalIn, finalIn, idxFind, h]
  simp only [Bool.false_eq_true, if_false]
  cases idxFind (fun a => nodeBeq a c) l with
  | none => rfl
  | some i => simp [List.drop_succ_cons]

/-- Python `list.index` locates the final `Return` of a `lastOnlyRet` list
at its actual position, with nothing after it. -/
theorem lastOnlyRet_finalIn : ∀ b : List Node, lastOnlyRet b = true →
    ∀ c ∈ b, isRet c = true → finalIn b c = true := by
  intro b
  induction b with
  | nil => intro _ c hc; simp at hc
  | cons x xs ih =>
      intro h c hc hret
      cases xs with
      | nil =>
          have hcx : c = x := by simpa using hc
          subst hcx
          simp [finalIn, idxFind, nodeBeq_refl]
      | cons y ys =>
          rw [lastOnlyRet, Bool.and_eq_true] at h
          rcases List.mem_cons.mp hc with h' | h'
          · subst h'
            rw [hret] at h
            simp at h
          · have hf := ih h.2 c h' hret
            have hx : isRet x = false := by
              rcases h with ⟨h1, _⟩
              cases hx : isRet x
              · rfl
              · rw [hx] at h1; simp at h1
            rw [finalIn_cons_ne x (y :: ys) c (nodeBeq_ret_ne x c hret hx)]
            exact hf

/-- The sufficient condition of `finalIn` unpacked: index found, nothing
after. -/
theorem finalIn_elim (b : List Node) (c : Node) (h : finalIn b c = true) :
    ∃ i, idxFind (fun x => nodeBeq x c) b = some i ∧ b.drop (i + 1) = [] := by
  rw [finalIn] at h
  cases hidx : idxFind (fun x => nodeBeq x c) b with
  | none => rw [hidx] at h; simp at h
  | some i =>
      rw [hidx] at h
      exact ⟨i, rfl, by simpa using h⟩

/-- A `Return` has no `body` attribute. -/
theorem isRet_not_body (n : Node) (h : isRet n = true) : hasBodyAttr n = false := by
  cases n <;> simp [isRet] at h <;> simp [hasBodyAttr]

/-- A node with a list-valued `body` has the `body` attribute. -/
theorem bodyAttrList_some (n : Node) (b : List Node)
    (h : bodyAttrList n = some b) : hasBodyAttr n = true := by
  cases n <;> simp [bodyAttrList] at h <;> simp [hasBodyAttr]

/-- A `Return` child of a `retOK` node lies, and ends, in the parent's
`body` list. -/
theorem ret_child_position : ∀ n c, retOK n = true → c ∈ children n →
    isRet c = true → ∃ b, bodyAttrList n = some b ∧ finalIn b c = true := by
  intro n c h hc hret
  cases n with
  | module b =>
      rw [retOK, Bool.and_eq_true] at h
      exact ⟨b, rfl, lastOnlyRet_finalIn b h.1 c hc hret⟩
  | functionDef l nm ps ds b =>
      simp only [retOK, Bool.and_eq_true] at h
      simp only [children, List.mem_append] at hc
      rcases hc with h' | h'
      · exact absurd hret (by simp [noRetL_mem ds h.1.1.1 c h'])
      · exact ⟨b, rfl, lastOnlyRet_finalIn b h.1.1.2 c h' hret⟩
  | classDef l nm bs b =>
      simp only [retOK, Bool.and_eq_true] at h
      simp only [children, List.mem_append] at hc
      rcases hc with h' | h'
      · exact absurd hret (by simp [noRetL_mem bs h.1.1.1 c h'])
      · exact ⟨b, rfl, lastOnlyRet_finalIn b h.1.1.2 c h' hret⟩
  | ret l v =>
      simp only [retOK, Bool.and_eq_true] at h
      cases v with
      | none => simp [children] at hc
      | some w =>
          have : c = w := by simpa [children] using hc
          subst this
          have := h.1
          rw [noRetO, hret] at this
          simp at this
  | assign l ts v =>
      simp only [retOK, Bool.and_eq_true] at h
      simp only [children, List.mem_append, List.mem_singleton] at hc
      rcases hc with h' | h'
      · exact absurd hret (by simp [noRetL_mem ts h.1.1.1 c h'])
      · subst h'; rw [hret] at h; simp at h
  | importS l ns => simp [children] at hc
  | importFrom l m ns => simp [children] at hc
  | ifS l t b o =>
      simp only [retOK, Bool.and_eq_true] at h
      simp only [children, List.mem_cons, List.mem_append] at hc
      rcases hc with h' | h' | h'
      · subst h'; rw [hret] at h; simp at h
      · exact ⟨b, rfl, lastOnlyRet_finalIn b h.1.1.1.1.2 c h' hret⟩
      · exact absurd hret (by simp [noRetL_mem o h.1.1.1.2 c h'])
  | forS l tg it b o =>
      simp only [retOK, Bool.and_eq_true] at h
      simp only [children, List.mem_cons, List.mem_append] at hc
      rcases hc with h' | h' | h' | h'
      · subst h'; rw [hret] at h; simp at h
      · subst h'; rw [hret] at h; simp at h
      · exact ⟨b, rfl, lastOnlyRet_finalIn b h.1.1.1.1.1.2 c h' hret⟩
      · exact absurd hret (by simp [noRetL_mem o h.1.1.1.1.2 c h'])
  | whileS l t b o =>
      simp only [retOK, Bool.and_eq_true] at h
      simp only [children, List.mem_cons, List.mem_append] at hc
      rcases hc with h' | h' | h'
      · subst h'; rw [hret] at h; simp at h
      · exact ⟨b, rfl, lastOnlyRet_finalIn b h.1.1.1.1.2 c h' hret⟩
      · exact absurd hret (by simp [noRetL_mem o h.1.1.1.2 c h'])
  | tryS l b hs o f =>
      simp only [retOK, Bool.and_eq_true] at h
      simp only [children, List.mem_append] at hc
      rcases hc with ((h' | h') | h') | h'
      · exact ⟨b, rfl, lastOnlyRet_finalIn b h.1.1.1.1.1.1.1 c h' hret⟩
      · exact absurd hret (by simp [noRetL_mem hs h.1.1.1.1.1.1.2 c h'])
      · exact absurd hret (by simp [noRetL_mem o h.1.1.1.1.1.2 c h'])
      · exact absurd hret (by simp [noRetL_mem f h.1.1.1.1.2 c h'])
  | exceptHandler l ty b =>
      simp only [retOK, Bool.and_eq_true] at h
      simp only [children, List.mem_append] at hc
      rcases hc with h' | h'
      · cases ty with
        | none => simp at h'
        | some w =>
            have : c = w := by simpa using h'
            subst this
            have := h.1.1.1
            rw [noRetO, hret] at this
            simp at this
      · exact ⟨b, rfl, lastOnlyRet_finalIn b h.1.1.2 c h' hret⟩
  | breakS l => simp [children] at hc
  | continueS l => simp [children] at hc
  | raiseS l e =>
      simp only [retOK, Bool.and_eq_true] at h
      cases e with
      | none => simp [children] at hc
      | some w =>
          have : c = w := by simpa [children] using hc
          subst this
          have := h.1
          rw [noRetO, hret] at this
          simp at this
  | globalS l ns => simp [children] at hc
  | nonlocalS l ns => simp [children] at hc
  | passS l => simp [children] at hc
  | exprS l v =>
      simp only [retOK, Bool.and_eq_true] at h
      have : c = v := by simpa [children] using hc
      subst this
      rw [hret] at h; simp at h
  | nameE l i ctx => simp [children] at hc
  | call l fn a =>
      simp only [retOK, Bool.and_eq_true] at h
      simp only [children, List.mem_cons] at hc
      rcases hc with h' | h'
      · subst h'; rw [hret] at h; simp at h
      · exact absurd hret (by simp [noRetL_mem a h.1.1.2 c h'])
  | constant l v => simp [children] at hc
  | lambdaE l ps ds b =>
      simp only [retOK, Bool.and_eq_true] at h
      simp only [children, List.mem_append, List.mem_singleton] at hc
      rcases hc with h' | h'
      · exact absurd hret (by simp [noRetL_mem ds h.1.1.1 c h'])
      · subst h'; rw [hret] at h; simp at h
  | listE l es =>
      simp only [retOK, Bool.and_eq_true] at h
      exact absurd hret (by simp [noRetL_mem es h.1 c (by simpa [children] using hc)])
  | dictE l es =>
      simp only [retOK, Bool.and_eq_true] at h
      exact absurd hret (by simp [noRetL_mem es h.1 c (by simpa [children] using hc)])
  | setE l es =>
      simp only [retOK, Bool.and_eq_true] at h
      exact absurd hret (by simp [noRetL_mem es h.1 c (by simpa [children] using hc)])
  | attrE l v a =>
      simp only [retOK, Bool.and_eq_true] at h
      have : c = v := by simpa [children] using hc
      subst this
      rw [hret] at h; simp at h

/-- The invariant passes from a walked node to its children. -/
theorem pairRetOK_kids (p : PNode) (h : pairRetOK p) :
    ∀ c ∈ kidsP p, pairRetOK c := by
  intro c hc
  rcases h with ⟨h1, _⟩
  simp only [kidsP, List.mem_map] at hc
  obtain ⟨n, hn, rfl⟩ := hc
  refine ⟨retOKL_mem _ (retOK_children p.1 h1) n hn, ?_⟩
  rw [retPosOK]
  cases hr : isRet n with
  | false => simp
  | true =>
      obtain ⟨b, hb, hfin⟩ := ret_child_position p.1 n h1 hn hr
      simp [hb, hfin]

/-- Under the invariant, the ancestor scan of a `Return` reports nothing
and raises nothing. -/
theorem unreach_ok_of_pair (p : PNode) (h : pairRetOK p) (hr : isRet p.1 = true) :
    unreachForReturn p.1 (p.1 :: p.2) = Except.ok [] := by
  obtain ⟨n, anc⟩ := p
  rcases h with ⟨_, h2⟩
  dsimp only at hr h2 ⊢
  rw [unreachForReturn, chainFind, isRet_not_body n hr]
  simp only [Bool.false_eq_true, if_false]
  rw [retPosOK.eq_def, hr] at h2
  simp only [Bool.not_true, Bool.false_or] at h2
  cases anc with
  | nil => rfl
  | cons p0 rest =>
      dsimp only at h2
      cases hb : bodyAttrList p0 with
      | none => rw [hb] at h2; simp at h2
      | some b =>
          rw [hb] at h2
          rw [chainFind, bodyAttrList_some p0 b hb]
          simp only [if_true, hb]
          obtain ⟨i, hidx, hdrop⟩ := finalIn_elim b n h2
          rw [hidx]
          dsimp only
          rw [hdrop]
          rfl

/-- A fold of the unreachable-code step over pairs that each contribute
nothing leaves the accumulator unchanged. -/
theorem unreach_foldl (l : List PNode)
    (h : ∀ p ∈ l, isRet p.1 = true → unreachForReturn p.1 (p.1 :: p.2) = Except.ok []) :
    ∀ is, l.foldl
      (fun acc p =>
        acc.bind fun is =>
          match isRet p.1 with
          | true => (unreachForReturn p.1 (p.1 :: p.2)).map (fun ms => is ++ ms)
          | false => Except.ok is)
      (Except.ok is) = Except.ok is := by
  induction l with
  | nil => intro is; rfl
  | cons p l ih =>
      intro is
      rw [List.foldl_cons]
      have hstep :
          (Except.ok is : Except String (List String)).bind
            (fun is =>
              match isRet p.1 with
              | true => (unreachForReturn p.1 (p.1 :: p.2)).map (fun ms => is ++ ms)
              | false => Except.ok is) = Except.ok is := by
        cases hr : isRet p.1 with
        | true =>
            rw [h p (List.mem_cons_self p l) hr]
            simp [Except.bind, Except.map]
        | false => rfl
      rw [hstep]
      exact ih (fun q hq => h q (List.mem_cons_of_mem p hq)) is

/-- With every `Return` final in its containing `body`, the unreachable-code
rule runs to completion and reports nothing. -/
theorem check_unreachable_of_retOK (t : Node) (h : retOK t = true) :
    check_unreachable_code t = Except.ok [] := by
  have hall : ∀ p ∈ walkA t, pairRetOK p := by
    refine walkFrom_pres pairRetOK pairRetOK_kids (size t) [(t, [])] ?_
    intro p hp
    have : p = (t, ([] : List Node)) := by simpa using hp
    subst this
    refine ⟨h, ?_⟩
    rw [retPosOK]
    cases isRet t <;> simp
  rw [check_unreachable_code]
  exact unreach_foldl (walkA t)
    (fun p hp hr => unreach_ok_of_pair p (hall p hp) hr) []

/-- `noLoopCntL` over an append. -/
theorem noLoopCntL_append (pr : Node → Bool) (il : Bool) :
    ∀ a b : List Node, noLoopCntL pr il (a ++ b) =
      noLoopCntL pr il a + noLoopCntL pr il b := by
  intro a b
  induction a with
  | nil => simp [noLoopCntL]
  | cons n ns ih => simp [noLoopCntL, ih]; omega

/-- `noLoopCntL` of an option's list view. -/
theorem noLoopCntL_toList (pr : Node → Bool) (il : Bool) :
    ∀ o : Option Node, noLoopCntL pr il o.toList = noLoopCntO pr il o := by
  intro o; cases o <;> simp [noLoopCntL, noLoopCntO]

/-- `noLoopCntL` as a mapped sum. -/
theorem noLoopCntL_eq_sum (pr : Node → Bool) (il : Bool) :
    ∀ l : List Node, noLoopCntL pr il l = (l.map (noLoopCnt pr il)).sum := by
  intro l
  induction l with
  | nil => rfl
  | cons n ns ih => simp [noLoopCntL, ih]

/-- The structural count unfolded through `children`: the node's own
contribution plus its children's, counted below a loop when the node is
one. -/
theorem noLoopCnt_eq (pr : Node → Bool) (il : Bool) (n : Node) :
    noLoopCnt pr il n =
      (if pr n && !il then 1 else 0) +
        noLoopCntL pr (il || isLoop n) (children n) := by
  cases n <;>
    simp [noLoopCnt, children, isLoop, noLoopCntL_append, noLoopCntL_toList,
      noLoopCntL, noLoopCntO] <;>
    omega

/-- The queued-subtrees measure over an append. -/
theorem sumSize_append (a b : List PNode) :
    sumSize (a ++ b) = sumSize a + sumSize b := by
  simp [sumSize]

/-- The measure of a node's children as queued by the walk. -/
theorem sumSize_kidsP (p : PNode) : sumSize (kidsP p) = sizeL (children p.1) := by
  rw [sumSize, kidsP, List.map_map, sizeL_eq_sum]
  rfl

/-- The breadth-first walk with ancestor paths computes the structural
no-loop-ancestor count: the flagged-pair indicators over the walk sum to the
structural count over the queued trees. -/
theorem walk_noLoopCnt (pr : Node → Bool) (hpr : ∀ n, pr n = true → isLoop n = false) :
    ∀ (f : Nat) (q : List PNode), sumSize q ≤ f →
      ((walkFrom f q).map
        (fun p => if pr p.1 && !((p.1 :: p.2).any isLoop) then 1 else 0)).sum =
      (q.map (fun p => noLoopCnt pr (p.2.any isLoop) p.1)).sum := by
  intro f
  induction f with
  | zero =>
      intro q hq
      cases q with
      | nil => simp [walkFrom]
      | cons p l =>
          exfalso
          have h1 : 0 < size p.1 := size_pos p.1
          have h2 : size p.1 ≤ sumSize (p :: l) := by simp [sumSize]
          omega
  | succ f ih =>
      intro q hq
      cases q with
      | nil => simp [walkFrom]
      | cons p l =>
          rw [walkFrom]
          have hsz : sumSize (l ++ kidsP p) ≤ f := by
            have h1 := size_children p.1
            have h2 : sumSize (p :: l) = size p.1 + sumSize l := by
              simp [sumSize]
            rw [sumSize_append, sumSize_kidsP]
            omega
          rw [List.map_cons, List.sum_cons, ih (l ++ kidsP p) hsz,
            List.map_append, List.sum_append]
          have hkids : ((kidsP p).map
              (fun c => noLoopCnt pr (c.2.any isLoop) c.1)).sum =
              noLoopCntL pr (isLoop p.1 || p.2.any isLoop) (children p.1) := by
            rw [noLoopCntL_eq_sum, kidsP, List.map_map]
            rfl
          rw [List.map_cons, List.sum_cons, hkids, noLoopCnt_eq]
          have harr : (if pr p.1 && !((p.1 :: p.2).any isLoop) then 1 else 0) =
              (if pr p.1 && !(p.2.any isLoop) then 1 else 0) ∧
              noLoopCntL pr (isLoop p.1 || p.2.any isLoop) (children p.1) =
              noLoopCntL pr (p.2.any isLoop || isLoop p.1) (children p.1) := by
            constructor
            · cases hp : pr p.1 with
              | false => simp
              | true => simp [List.any_cons, hpr p.1 hp]
            · rw [Bool.or_comm]
          rw [harr.1, harr.2]
          omega

/-- Per-pair finding count of the break rule. -/
theorem emBreak_length (p : PNode) :
    (emBreak p).length =
      (if isBreak p.1 && !((p.1 :: p.2).any isLoop) then 1 else 0) := by
  obtain ⟨n, anc⟩ := p
  cases n with
  | breakS ln =>
      simp only [emBreak, isBreak, List.any_cons, isLoop, Bool.false_or,
        Bool.true_and]
      cases h : anc.any isLoop with
      | true => rfl
      | false => rfl
  | _ => simp [emBreak, isBreak]

/-- Per-pair finding count of the continue rule. -/
theorem emContinue_length (p : PNode) :
    (emContinue p).length =
      (if isContinue p.1 && !((p.1 :: p.2).any isLoop) then 1 else 0) := by
  obtain ⟨n, anc⟩ := p
  cases n with
  | continueS ln =>
      simp only [emContinue, isContinue, List.any_cons, isLoop, Bool.false_or,
        Bool.true_and]
      cases h : anc.any isLoop with
      | true => rfl
      | false => rfl
  | _ => simp [emContinue, isContinue]

/-- A blank-run-bounded tail produces no blank-line findings. -/
theorem blanksAux_nil : ∀ (ls : List String) (i cnt : Nat),
    blankRunOK cnt ls = true → blanksAux i cnt ls = [] := by
  intro ls
  induction ls with
  | nil => intro i cnt _; rfl
  | cons l ls ih =>
      intro i cnt h
      rw [blankRunOK] at h
      rw [blanksAux]
      cases hb : pyStrip l == "" with
      | true =>
          rw [hb] at h
          simp at h
          exact ih (i + 1) (cnt + 1) h
      | false =>
          rw [hb] at h
          simp at h
          obtain ⟨h1, h2⟩ := h
          simp only [Bool.false_eq_true, if_false]
          rw [if_neg (show ¬ cnt > 2 by omega)]
          simpa using ih (i + 1) 0 h2

/-- A catalog whose every rule reports nothing leaves the accumulator
unchanged. -/
theorem foldl_stepCheck_ok (t : Node) (lines : List String) (st : Nat) :
    ∀ (cs : List Check) (acc : List String),
      (∀ c ∈ cs, c t lines st = Except.ok []) →
      cs.foldl (stepCheck t lines st) (Except.ok acc) = Except.ok acc := by
  intro cs
  induction cs with
  | nil => intro acc _; rfl
  | cons c cs ih =>
      intro acc h
      rw [List.foldl_cons]
      have hc : stepCheck t lines st (Except.ok acc) c = Except.ok acc := by
        rw [stepCheck, h c (List.mem_cons_self c cs)]
        simp [Except.bind, Except.map]
      rw [hc]
      exact ih acc (fun d hd => h d (List.mem_cons_of_mem c hd))

/-! The claims. -/

/-- C1: the claim says `analyze` runs to completion on every well-formed
input, in particular when a `return` sits in a branch other than the main
body of its nearest body-carrying ancestor.  The code violates this:
on `"def f():\n    if c:\n        x()\n    else:\n        return\n"` the
unreachable-code rule calls `If.body.index(<the Return>)`, which raises
`ValueError` (the `Return` is in `orelse`), and the exception propagates
out of `analyze` instead of a diagnostics list. -/
theorem C1_analyze_raises_on_else_return :
    analyze initReviewer (Except.ok elseRetTree) elseRetLines 0 =
      Except.error "ValueError: node is not in list" := rfl

/-- C2: the claim says a malformed source always yields exactly one
diagnostic with no rule executed, also on a reviewer that has already
analyzed successfully.  The code violates this: `self.issues` is never
reset and `self.tree` keeps the previous tree on parse failure, so the
second (malformed) call returns the two stale findings, the `SyntaxError`
entry, and then re-runs the whole catalog against the stale tree — six
diagnostics instead of one. -/
theorem C2_malformed_after_success_not_single :
    ((analyze initReviewer (Except.ok printTree) printLines 0).bind fun r1 =>
      (analyze r1 (Except.error "unexpected EOF") ["("] 1).map get_issues) =
      Except.ok ["Print statement at line 1.", "Magic number '5' at line 1.",
        "SyntaxError: unexpected EOF", "Style issues found.",
        "Print statement at line 1.", "Magic number '5' at line 1."] := rfl

/-- C3, counterexample: `"print(0)\n"` is syntactically valid and contains
none of the flagged patterns enumerated in the spec's rule catalog
(section 4.3 names `exec`/`eval` but no print rule), yet `analyze` returns
a non-empty list: the code's `check_print_statements` flags the call. -/
theorem C3_spec_catalog_counterexample :
    (analyze initReviewer (Except.ok printZeroTree) printZeroLines 0).map get_issues =
        Except.ok ["Print statement at line 1."] ∧
      ["Print statement at line 1."] ≠ ([] : List String) := ⟨rfl, by decide⟩

set_option maxHeartbeats 1000000 in
/-- C3, amended: for every syntactically valid source containing none of
the patterns flagged by the code's rule catalog — the spec's section-4.3
catalog extended with the print-call, semicolon-line, global/nonlocal,
nested-function and non-trivial-`pass` rules — and whose every `return` is
the final statement of its container's main body (so the unreachable-code
rule neither fires nor raises), a fresh `analyze` call with a clean style
signal produces an empty diagnostics list.  Each hypothesis states that one
rule's pattern is absent from the walked tree or the enumerated lines. -/
theorem C3_empty_when_code_catalog_clean
    (t : Node) (lines : List String)
    (hDoc : ∀ n ∈ walkN t, emDocstring n = [])
    (hCls : ∀ n ∈ walkN t, emClassName n = [])
    (hFn : ∀ n ∈ walkN t, emFunctionName n = [])
    (hVar : ∀ n ∈ walkN t, emVariableName n = [])
    (hConst : ∀ n ∈ walkN t, emConstantName n = [])
    (hImp : ∀ i ∈ importsOf t, (usedNames t).contains i = true)
    (hRed : ∀ n ∈ walkN t, emRedefined n = [])
    (hMag : ∀ n ∈ walkN t, emMagicMethod n = [])
    (hRet : retOK t = true)
    (hBr : ∀ n ∈ walkN t, emBranches n = [])
    (hArgs : ∀ n ∈ walkN t, emArgs n = [])
    (hNest : ∀ n ∈ walkN t, emNested n = [])
    (hEmpty : ∀ n ∈ walkN t, emEmptyBlock n = [])
    (hBreak : ∀ p ∈ walkA t, emBreak p = [])
    (hCont : ∀ p ∈ walkA t, emContinue p = [])
    (hRaise : ∀ n ∈ walkN t, emRaise n = [])
    (hRetOut : ∀ p ∈ walkA t, emRetOutside p = [])
    (hGlob : ∀ n ∈ walkN t, emGlobal n = [])
    (hNl : ∀ n ∈ walkN t, emNonlocal n = [])
    (hMut : ∀ n ∈ walkN t, emMutableDefault n = [])
    (hPrint : ∀ n ∈ walkN t, emPrint n = [])
    (hExec : ∀ n ∈ walkN t, emExec n = [])
    (hEval : ∀ n ∈ walkN t, emEval n = [])
    (hPass : ∀ p ∈ walkA t, emPass p = [])
    (hComm : ∀ pr ∈ enumFrom 1 lines, emComment pr = [])
    (hMagN : ∀ n ∈ walkN t, emMagicNumber n = [])
    (hBool : ∀ n ∈ walkN t, emBoolTrap n = [])
    (hTodo : ∀ pr ∈ enumFrom 1 lines, emTodo pr = [])
    (hLong : ∀ pr ∈ enumFrom 1 lines, emLongLine pr = [])
    (hMImp : ∀ pr ∈ enumFrom 1 lines, emMultiImport pr = [])
    (hInd : ∀ pr ∈ enumFrom 1 lines, emBadIndent pr = [])
    (hSemi : ∀ pr ∈ enumFrom 1 lines, emSemicolon pr = [])
    (hTab : ∀ pr ∈ enumFrom 1 lines, emTab pr = [])
    (hTrail : ∀ pr ∈ enumFrom 1 lines, emTrailing pr = [])
    (hMS : ∀ pr ∈ enumFrom 1 lines, emMultiStmt pr = [])
    (hTry : ∀ n ∈ walkN t, emTryNoExcept n = [])
    (hCatch : ∀ n ∈ walkN t, emCatchAll n = [])
    (hLE : ∀ n ∈ walkN t, emLoopElse n = [])
    (hExit : ∀ n ∈ walkN t, emExitCall n = [])
    (hLam : ∀ n ∈ walkN t, emLambda n = [])
    (hFmt : ∀ pr ∈ enumFrom 1 lines, emFormat pr = [])
    (hMCV : ∀ n ∈ walkN t, emMutableClassVar n = [])
    (hIR : ∀ n ∈ walkN t, emInconsistentRet n = [])
    (hWild : ∀ n ∈ walkN t, emWildcard n = [])
    (hBlank : blankRunOK 0 lines = true)
    (hLarge : ∀ n ∈ walkN t, emLargeFunction n = []) :
    analyze initReviewer (Except.ok t) lines 0 =
      Except.ok { issues := [], lines := lines, tree := some t } := by
  have eU : check_unused_imports t = [] := by
    rw [check_unused_imports]
    apply List.flatMap_eq_nil_iff.mpr
    intro i hi
    rw [hImp i hi]
    rfl
  have eUn := check_unreachable_of_retOK t hRet
  have eBl : check_multiple_consecutive_blank_lines lines = [] :=
    blanksAux_nil lines 1 0 hBlank
  have hcat : ∀ c ∈ catalog, c t lines 0 = Except.ok [] := by
    intro c hc
    simp only [catalog, List.mem_cons, List.not_mem_nil, or_false] at hc
    rcases hc with rfl|rfl|rfl|rfl|rfl|rfl|rfl|rfl|rfl|rfl|rfl|rfl|rfl|rfl|rfl|rfl|
      rfl|rfl|rfl|rfl|rfl|rfl|rfl|rfl|rfl|rfl|rfl|rfl|rfl|rfl|rfl|rfl|rfl|rfl|rfl|
      rfl|rfl|rfl|rfl|rfl|rfl|rfl|rfl|rfl|rfl|rfl|rfl|rfl
    · rfl
    · exact congrArg Except.ok (List.flatMap_eq_nil_iff.mpr hDoc)
    · exact congrArg Except.ok (List.flatMap_eq_nil_iff.mpr hCls)
    · exact congrArg Except.ok (List.flatMap_eq_nil_iff.mpr hFn)
    · exact congrArg Except.ok (List.flatMap_eq_nil_iff.mpr hVar)
    · exact congrArg Except.ok (List.flatMap_eq_nil_iff.mpr hConst)
    · exact congrArg Except.ok eU
    · exact congrArg Except.ok (List.flatMap_eq_nil_iff.mpr hRed)
    · exact congrArg Except.ok (List.flatMap_eq_nil_iff.mpr hMag)
    · exact eUn
    · exact congrArg Except.ok (List.flatMap_eq_nil_iff.mpr hBr)
    · exact congrArg Except.ok (List.flatMap_eq_nil_iff.mpr hArgs)
    · exact congrArg Except.ok (List.flatMap_eq_nil_iff.mpr hNest)
    · exact congrArg Except.ok (List.flatMap_eq_nil_iff.mpr hEmpty)
    · exact congrArg Except.ok (List.flatMap_eq_nil_iff.mpr hBreak)
    · exact congrArg Except.ok (List.flatMap_eq_nil_iff.mpr hCont)
    · exact congrArg Except.ok (List.flatMap_eq_nil_iff.mpr hRaise)
    · exact congrArg Except.ok (List.flatMap_eq_nil_iff.mpr hRetOut)
    · exact congrArg Except.ok (List.flatMap_eq_nil_iff.mpr hGlob)
    · exact congrArg Except.ok (List.flatMap_eq_nil_iff.mpr hNl)
    · exact congrArg Except.ok (List.flatMap_eq_nil_iff.mpr hMut)
    · exact congrArg Except.ok (List.flatMap_eq_nil_iff.mpr hPrint)
    · exact congrArg Except.ok (List.flatMap_eq_nil_iff.mpr hExec)
    · exact congrArg Except.ok (List.flatMap_eq_nil_iff.mpr hEval)
    · exact congrArg Except.ok (List.flatMap_eq_nil_iff.mpr hPass)
    · exact congrArg Except.ok (List.flatMap_eq_nil_iff.mpr hComm)
    · exact congrArg Except.ok (List.flatMap_eq_nil_iff.mpr hMagN)
    · exact congrArg Except.ok (List.flatMap_eq_nil_iff.mpr hBool)
    · exact congrArg Except.ok (List.flatMap_eq_nil_iff.mpr hTodo)
    · exact congrArg Except.ok (List.flatMap_eq_nil_iff.mpr hLong)
    · exact congrArg Except.ok (List.flatMap_eq_nil_iff.mpr hMImp)
    · exact congrArg Except.ok (List.flatMap_eq_nil_iff.mpr hInd)
    · exact congrArg Except.ok (List.flatMap_eq_nil_iff.mpr hSemi)
    · exact congrArg Except.ok (List.flatMap_eq_nil_iff.mpr hTab)
    · exact congrArg Except.ok (List.flatMap_eq_nil_iff.mpr hTrail)
    · exact congrArg Except.ok (List.flatMap_eq_nil_iff.mpr hMS)
    · exact congrArg Except.ok (List.flatMap_eq_nil_iff.mpr hTry)
    · exact congrArg Except.ok (List.flatMap_eq_nil_iff.mpr hCatch)
    · exact congrArg Except.ok (List.flatMap_eq_nil_iff.mpr hLE)
    · exact congrArg Except.ok (List.flatMap_eq_nil_iff.mpr hExit)
    · rfl
    · exact congrArg Except.ok (List.flatMap_eq_nil_iff.mpr hLam)
    · exact congrArg Except.ok (List.flatMap_eq_nil_iff.mpr hFmt)
    · exact congrArg Except.ok (List.flatMap_eq_nil_iff.mpr hMCV)
    · exact congrArg Except.ok (List.flatMap_eq_nil_iff.mpr hIR)
    · exact congrArg Except.ok (List.flatMap_eq_nil_iff.mpr hWild)
    · exact congrArg Except.ok eBl
    · exact congrArg Except.ok (List.flatMap_eq_nil_iff.mpr hLarge)
  have hrun : runChecks t lines 0 = Except.ok [] := by
    rw [runChecks]
    exact foldl_stepCheck_ok t lines 0 catalog [] hcat
  show (runChecks t lines 0).map _ = _
  rw [hrun]
  rfl

/-- C3, witness: `"x = 0\n"` satisfies every cleanliness hypothesis and
`analyze` returns the empty list on it. -/
theorem C3_empty_when_code_catalog_clean_witness :
    retOK cleanTree = true ∧ blankRunOK 0 cleanLines = true ∧
      analyze initReviewer (Except.ok cleanTree) cleanLines 0 =
        Except.ok { issues := [], lines := cleanLines, tree := some cleanTree } :=
  ⟨by decide, by decide,
    C3_empty_when_code_catalog_clean cleanTree cleanLines
      (by decide) (by decide) (by decide) (by decide) (by decide) (by decide)
      (by decide) (by decide) (by decide) (by decide) (by decide) (by decide)
      (by decide) (by decide) (by decide) (by decide) (by decide) (by decide)
      (by decide) (by decide) (by decide) (by decide) (by decide) (by decide)
      (by decide) (by decide) (by decide) (by decide) (by decide) (by decide)
      (by decide) (by decide) (by decide) (by decide) (by decide) (by decide)
      (by decide) (by decide) (by decide) (by decide) (by decide) (by decide)
      (by decide) (by decide) (by decide) (by decide)⟩

/-- C4: determinism — the diagnostics observable from an `analyze` call are
a function of the call's inputs (parse result, lines, style signal) and the
reviewer's field values alone, so two runs over identical text from
identically prepared reviewers yield identical, identically ordered lists.
The embedding is purely functional, and the one external signal (the Style
Adapter count) is an explicit argument held fixed between the runs. -/
theorem C4_two_run_determinism
    (pres : Except String Node) (lines : List String) (st : Nat)
    (r1 r2 : Reviewer) (h1 : get_issues r1 = get_issues r2)
    (h2 : r1.lines = r2.lines) (h3 : r1.tree = r2.tree) :
    (analyze r1 pres lines st).map get_issues =
      (analyze r2 pres lines st).map get_issues := by
  obtain ⟨i1, l1, t1⟩ := r1
  obtain ⟨i2, l2, t2⟩ := r2
  simp only [get_issues] at h1 h2 h3
  subst h1 h2 h3
  rfl

/-- C4, witness: two fresh runs on `"print(5)\n"` agree. -/
theorem C4_two_run_determinism_witness :
    (analyze initReviewer (Except.ok printTree) printLines 0).map get_issues =
      (analyze initReviewer (Except.ok printTree) printLines 0).map get_issues :=
  C4_two_run_determinism (Except.ok printTree) printLines 0
    initReviewer initReviewer rfl rfl rfl

/-- C5: the claim says the diagnostics observable after an `analyze` call
depend only on that call's input text.  The code violates this: the issue
list is created once in `__init__` and never cleared, so after analyzing
`"print(5)\n"` a second call on the clean source `"x = 0\n"` still reports
the first call's two findings, while a fresh reviewer on the same clean
source reports none. -/
theorem C5_stale_issues_leak :
    ((analyze initReviewer (Except.ok printTree) printLines 0).bind fun r1 =>
        (analyze r1 (Except.ok cleanTree) cleanLines 0).map get_issues) =
        Except.ok ["Print statement at line 1.", "Magic number '5' at line 1."] ∧
      (analyze initReviewer (Except.ok cleanTree) cleanLines 0).map get_issues =
        Except.ok [] := ⟨rfl, rfl⟩

/-- C6: a `Break` (resp. `Continue`) is flagged exactly when no ancestor on
its parent chain is a `For`/`While`: over every tree, the findings of the
rule are in bijection with the structurally counted loop-free `Break`
(resp. `Continue`) positions; concretely, a `break` inside an `if` inside a
`for` is not flagged, and a top-level `break` yields exactly the one
diagnostic. -/
theorem C6_break_continue_iff_no_loop_ancestor :
    (∀ t : Node,
        (check_break_outside_loop t).length = noLoopCnt isBreak false t ∧
        (check_continue_outside_loop t).length = noLoopCnt isContinue false t) ∧
      check_break_outside_loop forBreakTree = [] ∧
      check_break_outside_loop topBreakTree = ["Break outside loop at line 1."] := by
  have hbr : ∀ n, isBreak n = true → isLoop n = false := by
    intro n h; cases n <;> simp_all [isBreak, isLoop]
  have hco : ∀ n, isContinue n = true → isLoop n = false := by
    intro n h; cases n <;> simp_all [isContinue, isLoop]
  refine ⟨?_, rfl, rfl⟩
  intro t
  constructor
  · rw [check_break_outside_loop, List.length_flatMap]
    simp only [Function.comp_def, emBreak_length]
    rw [walkA, walk_noLoopCnt isBreak hbr (size t) [(t, [])] (by simp [sumSize])]
    simp
  · rw [check_continue_outside_loop, List.length_flatMap]
    simp only [Function.comp_def, emContinue_length]
    rw [walkA, walk_noLoopCnt isContinue hco (size t) [(t, [])] (by simp [sumSize])]
    simp

/-- C7: analyzing `"def f():\n  return\n  x()\n"` yields exactly one
unreachable-code diagnostic, referencing line 3 (the `x()` line), and
`"def f():\n  return\n"` yields none — stated for the rule itself and for
the unreachable-kind entries of the full `analyze` output. -/
theorem C7_unreachable_boundary :
    check_unreachable_code unreachTree =
        Except.ok ["Unreachable code after return in line 3."] ∧
      ((analyze initReviewer (Except.ok unreachTree) unreachLines 0).map fun r =>
          (get_issues r).filter (fun s => strHas s "Unreachable")) =
        Except.ok ["Unreachable code after return in line 3."] ∧
      check_unreachable_code retOnlyTree = Except.ok [] ∧
      ((analyze initReviewer (Except.ok retOnlyTree) retOnlyLines 0).map fun r =>
          (get_issues r).filter (fun s => strHas s "Unreachable")) =
        Except.ok [] := ⟨rfl, rfl, rfl, rfl⟩

/-- C8, counterexample: the spec's class pattern ("leading uppercase,
alphanumeric") admits the single-letter name `A`, but the code's regex
`^[A-Z][a-zA-Z0-9]+$` requires at least one character after the leading
letter, so `class A: pass` is flagged. -/
theorem C8_single_letter_class_counterexample :
    specClassNamePat "A" = true ∧
      check_class_names classATree = ["Class 'A' naming style."] := ⟨rfl, rfl⟩

/-- C8, amended: a class definition is flagged exactly when its name fails
`^[A-Z][a-zA-Z0-9]+$` — one leading uppercase letter followed by at least
one alphanumeric, so a single-letter class name is flagged — and a function
definition is flagged exactly when its name fails `^[a-z_][a-z0-9_]*$`;
`Foo1` passes, `foo1`, `1Foo` and `A` fail, `_private2` passes, `Bad`
fails. -/
theorem C8_naming_amended :
    (∀ (nm : String) (l : Nat),
        check_class_names (.module [.classDef l nm [] [.passS l]]) =
          (if classNameRe nm then [] else ["Class '" ++ nm ++ "' naming style."]) ∧
        check_function_names (.module [.functionDef l nm [] [] [.passS l]]) =
          (if snakeRe nm then [] else ["Function '" ++ nm ++ "' naming style."])) ∧
      classNameRe "Foo1" = true ∧ classNameRe "foo1" = false ∧
      classNameRe "1Foo" = false ∧ classNameRe "A" = false ∧
      snakeRe "_private2" = true ∧ snakeRe "Bad" = false := by
  refine ⟨?_, rfl, rfl, rfl, rfl, rfl, rfl⟩
  intro nm l
  constructor
  · cases hc : classNameRe nm <;>
      simp [check_class_names, walkN, walkA, walkFrom, size, sizeL, children,
        kidsP, emClassName, hc]
  · cases hc : snakeRe nm <;>
      simp [check_function_names, walkN, walkA, walkFrom, size, sizeL, children,
        kidsP, emFunctionName, hc]

/-- C9: the engine only ever appends — the findings accumulated after `k`
catalog steps are a prefix of those after `k + 1` steps whenever both
stages succeed, so earlier diagnostics are never removed, replaced or
reordered and catalog order is preserved. -/
theorem C9_append_only (t : Node) (lines : List String) (st k : Nat)
    (a b : List String)
    (h1 : runChecksTo k t lines st = Except.ok a)
    (h2 : runChecksTo (k + 1) t lines st = Except.ok b) :
    ∃ u, a ++ u = b := by
  have e : runChecksTo (k + 1) t lines st =
      (catalog[k]?).toList.foldl (stepCheck t lines st)
        (runChecksTo k t lines st) := by
    rw [runChecksTo, runChecksTo, List.take_succ, List.foldl_append]
  rw [e, h1] at h2
  cases hk : catalog[k]? with
  | none =>
      rw [hk] at h2
      simp only [Option.toList, List.foldl_nil] at h2
      exact ⟨[], by simpa using h2⟩
  | some c =>
      rw [hk] at h2
      simp only [Option.toList, List.foldl_cons, List.foldl_nil] at h2
      rw [stepCheck] at h2
      cases hc : c t lines st with
      | error e' => rw [hc] at h2; simp [Except.bind, Except.map] at h2
      | ok ms =>
          rw [hc] at h2
          simp only [Except.bind, Except.map, Except.ok.injEq] at h2
          exact ⟨ms, h2⟩

/-- C9, witness: on `"x = 0\n"` stage 0 accumulates `[]`, stage 1 (after
the style rule) still `[]`, and the former is a prefix of the latter. -/
theorem C9_append_only_witness :
    runChecksTo 0 cleanTree cleanLines 0 = Except.ok [] ∧
      runChecksTo 1 cleanTree cleanLines 0 = Except.ok [] ∧
      ∃ u, ([] : List String) ++ u = [] :=
  ⟨rfl, rfl, C9_append_only cleanTree cleanLines 0 0 [] [] rfl rfl⟩

/-- C10: the unused-import rule records the module's own top-level name —
the text before the first dot, the `as` alias ignored; `from m import f`
records `m` — and compares it against the names read anywhere, so
`import x as y` used only via `y` is still reported as unused `x`,
`from m import f` with `f` used is reported as unused `m`, and
`import a.b as c` used via `c` is reported as unused `a`. -/
theorem C10_unused_import_semantics :
    (∀ (l : Nat) (nm : String) (al : Option String),
        importsOf (.module [.importS l [(nm, al)]]) = [headDot nm]) ∧
      (∀ (l : Nat) (m : String) (names : List (String × Option String)),
          importsOf (.module [.importFrom l (some m) names]) = [headDot m]) ∧
      check_unused_imports aliasImportTree = ["Unused import 'x'."] ∧
      check_unused_imports fromImportTree = ["Unused import 'm'."] ∧
      check_unused_imports dottedImportTree = ["Unused import 'a'."] := by
  refine ⟨?_, ?_, rfl, rfl, rfl⟩
  · intro l nm al
    simp [importsOf, walkN, walkA, walkFrom, size, sizeL, children, kidsP]
  · intro l m names
    simp [importsOf, walkN, walkA, walkFrom, size, sizeL, children, kidsP]

end CodeReviewer
